import Mathlib

/-!
Verification development for the AudioBeat visualizer repository.

The development shallowly embeds, in Lean, the two core subsystems of the
repository:

* the Frame Renderer of src/components/visualizationRenderer (the file that
  exports drawImageCore, drawLinearBarsCore, drawLinearWaveformCore,
  drawCircularBarsCore and renderSingleFrame), modelled as pure functions
  from a canvas-context state to a canvas-context state that record every
  drawing command in an operation trace; and

* the Export Orchestrator of src/App.tsx (commonExportSetup,
  cleanupExportResources, handleExportWebM and handleExportMP4 onstop
  handlers, startExportRenderLoop and its renderFn), modelled as state
  transformers over an explicit ExportState record, with external
  nondeterminism (codec support, audio metadata, frame schedule, recorder
  data events, the FFmpeg transcoder) passed in as explicit parameters.

Numeric convention: JavaScript numbers are modelled as exact rationals.
The double constant Math.PI is modelled by the rational literal mathPI
below; the only transcendental operation used by the renderer, Math.sin
inside the swing rotation, is kept symbolic in the trace (AngleVal.sinSwing
stores the two rational arguments from which the angle is computed).
-/

namespace AudioVis

/-- Model of the JavaScript double constant Math.PI (exact rational reading
of its decimal printout). -/
def mathPI : ℚ := 3.141592653589793

/-- Math.round on a rational: floor of x + 1/2 (JavaScript rounds half up). -/
def jsRound (x : ℚ) : ℤ := ⌊x + 1/2⌋

/-- JavaScript remainder a % b for the nonnegative operands used by the
palette hue functions. -/
def jsMod (a b : ℚ) : ℚ := a - b * ((⌊a / b⌋ : ℤ) : ℚ)

/-! ## Data model from src/types.ts -/

/-- VisualizationType from src/types.ts. -/
inductive VisualizationType
  | linear
  | circular
deriving DecidableEq, Repr

/-- LinearGraphStyle from src/types.ts. -/
inductive LinearGraphStyle
  | bars
  | waveform
deriving DecidableEq, Repr

/-- ColorTheme from src/types.ts. -/
inductive ColorTheme
  | sky
  | sunset
  | forest
  | neonDreams
deriving DecidableEq, Repr

/-- A CSS color value as produced by the palette table of src/types.ts:
rgb/rgba literals, hex literals, and the hsla values produced by the
circularFill hue functions. -/
inductive CssColor
  | rgb (r g b : ℕ)
  | rgba (r g b : ℕ) (a : ℚ)
  | hex (s : String)
  | hsla (hue sat light a : ℚ)
deriving DecidableEq, Repr

/-- A canvas fill/stroke style: a plain color or a linear gradient with its
end points and color stops, as built per bar in drawLinearBarsCore. -/
inductive FillStyle
  | color (c : CssColor)
  | linearGradient (x0 y0 x1 y1 : ℚ) (stops : List (ℚ × CssColor))
deriving DecidableEq, Repr

/-- ColorPaletteDefinition from src/types.ts. -/
structure ColorPaletteDefinition where
  name : String
  barGradient : List CssColor
  waveformStroke : CssColor
  circularFill : ℚ → ℚ → CssColor
  background : CssColor
  text : CssColor

/-- PALETTES from src/types.ts. -/
def PALETTES : ColorTheme → ColorPaletteDefinition
  | ColorTheme.sky =>
    { name := "Sky"
      barGradient := [CssColor.rgb 14 165 233, CssColor.rgb 56 189 248, CssColor.rgb 125 211 252]
      waveformStroke := CssColor.rgb 56 189 248
      circularFill := fun hue a => CssColor.hsla (jsMod (hue * 300 + 180) 360) 90 65 a
      background := CssColor.rgba 15 23 42 1
      text := CssColor.rgba 203 213 225 (7/10) }
  | ColorTheme.sunset =>
    { name := "Sunset"
      barGradient := [CssColor.hex "#F97316", CssColor.hex "#FDBA74", CssColor.hex "#FECACA"]
      waveformStroke := CssColor.hex "#F97316"
      circularFill := fun hue a => CssColor.hsla (jsMod (hue * 40 + 10) 360) 100 60 a
      background := CssColor.rgba 30 20 10 1
      text := CssColor.rgba 253 186 116 (4/5) }
  | ColorTheme.forest =>
    { name := "Forest"
      barGradient := [CssColor.hex "#16A34A", CssColor.hex "#4ADE80", CssColor.hex "#BBF7D0"]
      waveformStroke := CssColor.hex "#16A34A"
      circularFill := fun hue a => CssColor.hsla (jsMod (hue * 60 + 90) 360) 70 50 a
      background := CssColor.rgba 10 25 15 1
      text := CssColor.rgba 134 239 172 (4/5) }
  | ColorTheme.neonDreams =>
    { name := "Neon Dreams"
      barGradient := [CssColor.hex "#EC4899", CssColor.hex "#F472B6", CssColor.hex "#F9A8D4"]
      waveformStroke := CssColor.hex "#DB2777"
      circularFill := fun hue a => CssColor.hsla (jsMod (hue * 360 + 280) 360) 100 65 a
      background := CssColor.rgba 20 5 30 1
      text := CssColor.rgba 240 171 252 (4/5) }

/-! ## Canvas context model

A CanvasRenderingContext2D is modelled as a record of its ambient drawing
state (globalAlpha, fillStyle, strokeStyle, lineWidth, the transform stack
expressed as the list of applied transform operations, the active clip
regions, the current path) together with the save/restore stack and the
trace of emitted drawing commands.  save pushes the ambient drawing state;
restore pops it.  The current path and the emitted trace are not part of
the saved state, matching the HTML canvas specification. -/

/-- A rotation angle: either a plain rational (all angles built from indices
and mathPI) or the symbolic swing angle sin(t) * s used by drawImageCore,
which stores the rational arguments t = currentTime * 0.5 and
s = imageSwingIntensity * mathPI / 180. -/
inductive AngleVal
  | q (x : ℚ)
  | sinSwing (t s : ℚ)
deriving DecidableEq, Repr

/-- One applied transform operation (ctx.translate / ctx.rotate). -/
inductive Tf
  | translate (x y : ℚ)
  | rotate (a : AngleVal)
deriving DecidableEq, Repr

/-- One segment of a canvas path. -/
inductive PathSeg
  | move (x y : ℚ)
  | line (x y : ℚ)
  | arcTo (x1 y1 x2 y2 r : ℚ)
  | arc (cx cy r a0 a1 : ℚ) (ccw : Bool)
  | close
deriving DecidableEq, Repr

/-- A drawing command (the geometric payload of one emitted operation). -/
inductive CanvasOp
  | fillRect (x y w h : ℚ)
  | fillPath (segs : List PathSeg)
  | strokePath (segs : List PathSeg)
  | drawImage (imgId : ℕ) (dx dy dw dh : ℚ)
deriving DecidableEq, Repr

/-- One emitted drawing operation together with the ambient state under
which it was executed; the pixels it produces are a function of exactly
these fields. -/
structure Emitted where
  op : CanvasOp
  alpha : ℚ
  transform : List Tf
  clipRegions : List (List PathSeg)
  fill : FillStyle
  stroke : FillStyle
  lineWidth : ℚ
deriving DecidableEq, Repr

/-- The drawing state saved by ctx.save and restored by ctx.restore. -/
structure SavedState where
  alpha : ℚ
  fill : FillStyle
  stroke : FillStyle
  lineWidth : ℚ
  transform : List Tf
  clipRegions : List (List PathSeg)
deriving DecidableEq, Repr

/-- The canvas context state. -/
structure Ctx where
  alpha : ℚ
  fill : FillStyle
  stroke : FillStyle
  lineWidth : ℚ
  transform : List Tf
  clipRegions : List (List PathSeg)
  path : List PathSeg
  stack : List SavedState
  ops : List Emitted
deriving DecidableEq, Repr

def Ctx.save (c : Ctx) : Ctx :=
  { c with stack := ⟨c.alpha, c.fill, c.stroke, c.lineWidth, c.transform, c.clipRegions⟩ :: c.stack }

def Ctx.restore (c : Ctx) : Ctx :=
  match c.stack with
  | [] => c
  | f :: rest =>
    { c with alpha := f.alpha, fill := f.fill, stroke := f.stroke,
             lineWidth := f.lineWidth, transform := f.transform,
             clipRegions := f.clipRegions, stack := rest }

def Ctx.translate (c : Ctx) (x y : ℚ) : Ctx :=
  { c with transform := c.transform ++ [Tf.translate x y] }

def Ctx.rotate (c : Ctx) (a : AngleVal) : Ctx :=
  { c with transform := c.transform ++ [Tf.rotate a] }

def Ctx.setAlpha (c : Ctx) (a : ℚ) : Ctx := { c with alpha := a }

def Ctx.setFill (c : Ctx) (f : FillStyle) : Ctx := { c with fill := f }

def Ctx.setStroke (c : Ctx) (f : FillStyle) : Ctx := { c with stroke := f }

def Ctx.setLineWidth (c : Ctx) (w : ℚ) : Ctx := { c with lineWidth := w }

def Ctx.beginPath (c : Ctx) : Ctx := { c with path := [] }

def Ctx.moveTo (c : Ctx) (x y : ℚ) : Ctx := { c with path := c.path ++ [PathSeg.move x y] }

def Ctx.lineTo (c : Ctx) (x y : ℚ) : Ctx := { c with path := c.path ++ [PathSeg.line x y] }

def Ctx.arcTo (c : Ctx) (x1 y1 x2 y2 r : ℚ) : Ctx :=
  { c with path := c.path ++ [PathSeg.arcTo x1 y1 x2 y2 r] }

def Ctx.arcSeg (c : Ctx) (cx cy r a0 a1 : ℚ) (ccw : Bool) : Ctx :=
  { c with path := c.path ++ [PathSeg.arc cx cy r a0 a1 ccw] }

def Ctx.closePath (c : Ctx) : Ctx := { c with path := c.path ++ [PathSeg.close] }

def Ctx.clipNow (c : Ctx) : Ctx := { c with clipRegions := c.clipRegions ++ [c.path] }

def Ctx.emit (c : Ctx) (op : CanvasOp) : Ctx :=
  { c with ops := c.ops ++ [⟨op, c.alpha, c.transform, c.clipRegions, c.fill, c.stroke, c.lineWidth⟩] }

def Ctx.fillRect (c : Ctx) (x y w h : ℚ) : Ctx := c.emit (CanvasOp.fillRect x y w h)

def Ctx.fillPath (c : Ctx) : Ctx := c.emit (CanvasOp.fillPath c.path)

def Ctx.strokePath (c : Ctx) : Ctx := c.emit (CanvasOp.strokePath c.path)

def Ctx.drawImage (c : Ctx) (imgId : ℕ) (dx dy dw dh : ℚ) : Ctx :=
  c.emit (CanvasOp.drawImage imgId dx dy dw dh)

/-! ## Frame Renderer (src/components/visualizationRenderer) -/

/-- An HTMLImageElement as the renderer sees it: its natural dimensions and
an identifier standing for its bitmap contents. -/
structure ImageDims where
  natW : ℚ
  natH : ℚ
  id : ℕ
deriving DecidableEq, Repr

/-- The props record taken by drawImageCore. -/
structure ImageProps where
  visualizationType : VisualizationType
  imageScale : ℚ
  pulseIntensity : ℚ
  imageCornerRadius : ℚ
  imageSwingIntensity : ℚ
  enablePulse : Bool
  enableSwing : Bool
  currentTime : ℚ
deriving DecidableEq, Repr

/-- The pulse factor currentBeatScale computed by drawImageCore: when the
react flag, the pulse toggle, a nonempty frequency array and a positive
pulse intensity are all present, 1 + (mean/255) * (0.2 * pulseIntensity),
else 1. -/
def imageBeatScale (react : Bool) (enablePulse : Bool) (audioData : Option (List ℕ))
    (pulseIntensity : ℚ) : ℚ :=
  match audioData with
  | some l =>
    if react = true ∧ enablePulse = true ∧ 0 < l.length ∧ 0 < pulseIntensity then
      1 + (((l.sum : ℚ) / (l.length : ℚ)) / 255) * ((1/5) * pulseIntensity)
    else 1
  | none => 1

/-- The destination size (dWidth, dHeight) computed by drawImageCore:
the image is scaled by min(maxImgWidth/naturalWidth,
maxImgHeight/naturalHeight, 1 * imageScale) where maxImgWidth/Height are
canvas dimension / baseScaleFactor * imageScale (baseScaleFactor 3.0 for
circular, 2.5 for linear), then multiplied by the pulse factor. -/
def imageDrawSize (img : ImageDims) (audioData : Option (List ℕ))
    (canvasW canvasH : ℚ) (props : ImageProps) (react : Bool) : ℚ × ℚ :=
  let baseScaleFactor : ℚ := if props.visualizationType = VisualizationType.circular then 3 else 5/2
  let maxImgWidth := canvasW / baseScaleFactor * props.imageScale
  let maxImgHeight := canvasH / baseScaleFactor * props.imageScale
  let imgScaleFit := min (min (maxImgWidth / img.natW) (maxImgHeight / img.natH))
    (1 * props.imageScale)
  let beat := imageBeatScale react props.enablePulse audioData props.pulseIntensity
  (img.natW * imgScaleFit * beat, img.natH * imgScaleFit * beat)

/-- drawImageCore from src/components/visualizationRenderer: composites the
center image onto the canvas, with optional pulse scaling, swing rotation
and rounded-corner clip, inside a save/restore pair. -/
def drawImageCore (ctx : Ctx) (img : ImageDims) (audioData : Option (List ℕ))
    (canvasW canvasH : ℚ) (props : ImageProps) (react : Bool) : Ctx :=
  let sz := imageDrawSize img audioData canvasW canvasH props react
  let dW := sz.1
  let dH := sz.2
  let dxInitial := (canvasW - dW) / 2
  let dyInitial := (canvasH - dH) / 2
  let c1 := ctx.save
  let c2 :=
    if react = true ∧ props.enableSwing = true ∧ 0 < props.imageSwingIntensity then
      (c1.translate (canvasW / 2) (canvasH / 2)).rotate
        (AngleVal.sinSwing (props.currentTime * (1/2)) (props.imageSwingIntensity * mathPI / 180))
    else c1
  let dx :=
    if react = true ∧ props.enableSwing = true ∧ 0 < props.imageSwingIntensity then
      -(dW / 2)
    else dxInitial
  let dy :=
    if react = true ∧ props.enableSwing = true ∧ 0 < props.imageSwingIntensity then
      -(dH / 2)
    else dyInitial
  let c3 := c2.setAlpha (9/10)
  let c4 :=
    if 0 < props.imageCornerRadius ∧ 0 < dW ∧ 0 < dH then
      let cornerRadiusVal := min dW dH / 2 * (min props.imageCornerRadius 50 / 50)
      (((((c3.beginPath.moveTo (dx + cornerRadiusVal) dy).arcTo (dx + dW) dy (dx + dW) (dy + dH)
          cornerRadiusVal).arcTo (dx + dW) (dy + dH) dx (dy + dH) cornerRadiusVal).arcTo dx
          (dy + dH) dx dy cornerRadiusVal).arcTo dx dy (dx + dW) dy
          cornerRadiusVal).closePath.clipNow
    else c3
  (c4.drawImage img.id dx dy dW dH).restore

/-- drawLinearBarsCore from src/components/visualizationRenderer. -/
def drawLinearBarsCore (ctx : Ctx) (audioData : List ℕ) (bufferLen : ℕ)
    (canvasW canvasH : ℚ) (palette : ColorPaletteDefinition)
    (visualizerDetailScale : ℚ) : Ctx :=
  let spacing := max 1 (canvasW * (3/1000))
  let numBarsToDisplay := (3 * bufferLen) / 4
  let effectiveNumBars := max 1 numBarsToDisplay
  let barWidth := (canvasW - ((effectiveNumBars : ℚ) - 1) * spacing) / (effectiveNumBars : ℚ)
  ((List.range effectiveNumBars).foldl
    (fun (st : Ctx × ℚ) i =>
      let c := st.1
      let x := st.2
      let barHeightPercentage := (audioData.getD i 0 : ℚ) / 255
      let barHeight := barHeightPercentage * canvasH * (9/10) * visualizerDetailScale
      let gradient := FillStyle.linearGradient x canvasH x (canvasH - barHeight)
        [(0, palette.barGradient.getD 0 (CssColor.rgb 0 0 0)),
         (3/5, palette.barGradient.getD 1 (CssColor.rgb 0 0 0)),
         (1, palette.barGradient.getD 2 (CssColor.rgb 0 0 0))]
      let c1 := (((c.setFill gradient).setAlpha
        (max (1/5) barHeightPercentage)).fillRect x (canvasH - barHeight) (max 1 barWidth)
          barHeight).setAlpha 1
      (c1, x + barWidth + spacing))
    (ctx, 0)).1

/-- drawLinearWaveformCore from src/components/visualizationRenderer. -/
def drawLinearWaveformCore (ctx : Ctx) (audioData : List ℕ) (canvasW canvasH : ℚ)
    (palette : ColorPaletteDefinition) (visualizerDetailScale : ℚ) : Ctx :=
  let c0 := (ctx.setLineWidth (max 1 (min 3 (canvasW * (1/250))) * visualizerDetailScale)).setStroke
    (FillStyle.color palette.waveformStroke)
  let sliceWidth := canvasW / (audioData.length : ℚ)
  let c1 := (List.range audioData.length).foldl
    (fun c i =>
      let v := (audioData.getD i 0 : ℚ) / 128
      let y := (v * canvasH / 2 - canvasH / 2) * visualizerDetailScale + canvasH / 2
      if i = 0 then c.moveTo ((i : ℚ) * sliceWidth) y else c.lineTo ((i : ℚ) * sliceWidth) y)
    c0.beginPath
  (c1.lineTo canvasW (canvasH / 2)).strokePath

/-- The geometry drawn for one circular bar. capsule carries the arc cap
path of lines 228-238 of the renderer; flatCapPath is the same path with a
straight top (the inner else of line 233), which is a rectangle of width
2 * capRadius; plainRect is the fillRect fallback; skip is the continue for
bars shorter than one pixel (and the final dead else). -/
inductive BarGeom
  | capsule (capRadius innerR len : ℚ)
  | flatCapPath (capRadius innerR len : ℚ)
  | plainRect (thickness innerR len : ℚ)
  | skip
deriving DecidableEq, Repr

/-- The branch structure of the per-bar body of drawCircularBarsCore:
continue when barLength < 1; a path shape when barLength > capRadius * 0.5
and capRadius > 0, with a rounded cap exactly when barLength > capRadius;
otherwise a plain fillRect when barLength > 0. -/
def circularBarGeom (barLength barVisualThickness innerRadius : ℚ) : BarGeom :=
  if barLength < 1 then BarGeom.skip
  else
    let capRadius := barVisualThickness / 2
    if capRadius * (1/2) < barLength ∧ 0 < capRadius then
      if capRadius < barLength then BarGeom.capsule capRadius innerRadius barLength
      else BarGeom.flatCapPath capRadius innerRadius barLength
    else if 0 < barLength then BarGeom.plainRect barVisualThickness innerRadius barLength
    else BarGeom.skip

/-- Whether a bar geometry is a capsule: straight sides plus a rounded
outer cap. -/
def BarGeom.isCapsule : BarGeom → Bool
  | BarGeom.capsule _ _ _ => true
  | _ => false

/-- Whether a bar geometry is a plain rectangle: either the four-sided path
with a straight top, or the fillRect fallback. -/
def BarGeom.isRectangle : BarGeom → Bool
  | BarGeom.flatCapPath _ _ _ => true
  | BarGeom.plainRect _ _ _ => true
  | _ => false

/-- Emission of the drawing commands for one circular bar geometry,
following lines 227-241 of the renderer. -/
def emitBarGeom (c : Ctx) : BarGeom → Ctx
  | BarGeom.capsule cap r len =>
    (((((c.beginPath.moveTo (-cap) r).lineTo (-cap) (r + len - cap)).arcSeg 0 (r + len - cap)
        cap mathPI 0 false).lineTo cap r).closePath).fillPath
  | BarGeom.flatCapPath cap r len =>
    ((((((c.beginPath.moveTo (-cap) r).lineTo (-cap) (r + len - cap)).lineTo cap
        (r + len - cap)).lineTo cap r).closePath)).fillPath
  | BarGeom.plainRect th r len => c.fillRect (-(th / 2)) r th len
  | BarGeom.skip => c

/-- drawCircularBarsCore from src/components/visualizationRenderer. -/
def drawCircularBarsCore (ctx : Ctx) (audioData : List ℕ) (bufferLen : ℕ)
    (canvasW canvasH : ℚ) (palette : ColorPaletteDefinition)
    (visualizerDetailScale : ℚ) : Ctx :=
  let centerX := canvasW / 2
  let centerY := canvasH / 2
  let innerRadius : ℚ := 2
  let effectiveMaxOuterRadius := (min canvasW canvasH / 2) * (9/10) * visualizerDetailScale
  let numBarsToDisplay := (7 * bufferLen) / 10
  let barAngularWidth := (mathPI * 2) / (numBarsToDisplay : ℚ)
  let barDisplayWidthFactor : ℚ := 17/20
  let barVisualThickness := max 1
    ((mathPI * 2 * (effectiveMaxOuterRadius * (1/2))) / (numBarsToDisplay : ℚ) *
      barDisplayWidthFactor)
  (List.range numBarsToDisplay).foldl
    (fun c i =>
      let barHeightPercentage := (audioData.getD i 0 : ℚ) / 255
      let barLength := barHeightPercentage * (effectiveMaxOuterRadius - innerRadius)
      match circularBarGeom barLength barVisualThickness innerRadius with
      | BarGeom.skip => c
      | g =>
        let angle := (i : ℚ) * barAngularWidth
        let a := max (1/5) barHeightPercentage
        let c1 := ((c.save.translate centerX centerY).rotate
          (AngleVal.q (angle - mathPI / 2))).setFill
          (FillStyle.color (palette.circularFill ((i : ℚ) / (numBarsToDisplay : ℚ)) a))
        (emitBarGeom c1 g).restore)
    ctx

/-- The ambient host environment a browser exposes to any code: the wall
clock and the performance clock.  renderSingleFrame receives it to state
that its output does not depend on it. -/
structure HostEnv where
  wallClockMs : ℚ
  perfNowMs : ℚ
deriving DecidableEq, Repr

/-- The props record taken by renderSingleFrame. -/
structure RenderProps where
  visualizationType : VisualizationType
  linearGraphStyle : LinearGraphStyle
  colorTheme : ColorTheme
  centerImage : Option ImageDims
  imageScale : ℚ
  pulseIntensity : ℚ
  imageCornerRadius : ℚ
  imageSwingIntensity : ℚ
  enablePulse : Bool
  enableSwing : Bool
  visualizerDetailScale : ℚ
  width : ℚ
  height : ℚ
  currentTime : ℚ
deriving DecidableEq, Repr

/-- renderSingleFrame from src/components/visualizationRenderer: clears the
surface to the palette background, draws the selected visualization from
the spectral frame, then composites the center image if present (react
flag true). -/
def renderSingleFrame (host : HostEnv) (ctx : Ctx) (frequencyData timeDomainData : List ℕ)
    (props : RenderProps) : Ctx :=
  let currentPalette := PALETTES props.colorTheme
  let c1 := (ctx.setFill (FillStyle.color currentPalette.background)).fillRect 0 0
    props.width props.height
  let c2 :=
    if props.visualizationType = VisualizationType.linear then
      match props.linearGraphStyle with
      | LinearGraphStyle.bars =>
        drawLinearBarsCore c1 frequencyData frequencyData.length props.width props.height
          currentPalette props.visualizerDetailScale
      | LinearGraphStyle.waveform =>
        drawLinearWaveformCore c1 timeDomainData props.width props.height currentPalette
          props.visualizerDetailScale
    else
      drawCircularBarsCore c1 frequencyData frequencyData.length props.width props.height
        currentPalette props.visualizerDetailScale
  match props.centerImage with
  | some img =>
    drawImageCore c2 img (some frequencyData) props.width props.height
      { visualizationType := props.visualizationType
        imageScale := props.imageScale
        pulseIntensity := props.pulseIntensity
        imageCornerRadius := props.imageCornerRadius
        imageSwingIntensity := props.imageSwingIntensity
        enablePulse := props.enablePulse
        enableSwing := props.enableSwing
        currentTime := props.currentTime } true
  | none => c2

/-! ## Export Orchestrator (src/App.tsx)

The export flow of App.tsx is modelled as state transformers over an
ExportState record holding the React state fields and refs that the export
closures read and write.  External nondeterminism is passed explicitly:
codec support, audio metadata, the per-frame audio clock, whether a frame
render throws, recorder data events and the FFmpeg transcoder outcome.
The cleanupRuns field is ghost instrumentation: it is incremented exactly
when cleanupExportResources runs and is read by no modelled code path. -/

/-- The requested container (exportSettings.exportType). -/
inductive ExportType
  | webm
  | mp4
deriving DecidableEq, Repr

/-- MediaRecorder.state (the paused state is never used by App.tsx). -/
inductive RecState
  | inactive
  | recording
deriving DecidableEq, Repr

/-- The MediaRecorder held in mediaRecorderRef: its state, which handlers
are currently assigned, and whether a stop event is pending dispatch
(set on the recording-to-inactive transition). -/
structure RecorderHandle where
  recState : RecState
  hasOnStart : Bool
  hasOnStop : Bool
  hasOnData : Bool
  hasOnError : Bool
  stopEventPending : Bool
deriving DecidableEq, Repr

/-- A download offered to the user: the deterministic filename parts
(audio base name, resolution, fps, extension) and the artifact byte size. -/
structure Artifact where
  base : String
  width : ℕ
  height : ℕ
  fps : ℕ
  ext : String
  size : ℕ
deriving DecidableEq, Repr

/-- The App state and refs read and written by the export flow.
recordedChunks holds the sizes of the captured data chunks;
exportAudio is the object URL assigned to the export audio element;
ffmpegFiles is the transcoder working store (named buffers);
downloads records every artifact offered for download. -/
structure ExportState where
  audioFile : Option String
  ffmpegLoaded : Bool
  isExporting : Bool
  error : Option String
  exportStatusMessage : String
  exportProgress : ℤ
  currentExportFrame : ℕ
  totalExportFrames : ℤ
  recordedChunks : List ℕ
  exportAudio : Option String
  audioURLOpen : Bool
  analyserSet : Bool
  renderCanvasSet : Bool
  animationReq : Option ℕ
  rafPending : Bool
  audioCtxOpen : Bool
  recorder : Option RecorderHandle
  ffmpegFiles : List String
  downloads : List Artifact
  previewText : Option String
  cleanupRuns : ℕ
deriving DecidableEq, Repr

/-- cleanupExportResources from App.tsx lines 628-677: sets the status
message, clears isExporting, revokes the export audio object URL, drops
the analyser and off-screen canvas refs, cancels any pending animation
frame, closes the export audio context, nulls the recorder handlers and
stops and drops the recorder (the stop event fires with no handler
attached, so it cannot re-enter), clears the captured chunks, and repaints
the preview canvas.  The transcoder working store is not touched. -/
def cleanupExportResources (s : ExportState) (status : Option String) : ExportState :=
  { audioFile := s.audioFile
    ffmpegLoaded := s.ffmpegLoaded
    -- line 630: setIsExporting(false)
    isExporting := false
    error := s.error
    -- line 629: status argument, or a default chosen from error / progress
    exportStatusMessage :=
      match status with
      | some m => m
      | none =>
        if s.error ≠ none then "Export failed. Cleaning up..."
        else if 100 ≤ s.exportProgress then "Export complete. Cleaning up..."
        else "Export cancelled. Cleaning up..."
    exportProgress := s.exportProgress
    currentExportFrame := s.currentExportFrame
    totalExportFrames := s.totalExportFrames
    -- line 655: recordedChunksRef.current = []
    recordedChunks := []
    -- lines 632-635: revoke the audio object URL and drop the element
    exportAudio := none
    audioURLOpen := if s.exportAudio ≠ none then false else s.audioURLOpen
    -- lines 636-637: drop analyser and render canvas refs
    analyserSet := false
    renderCanvasSet := false
    -- lines 638-641: cancel the pending callback if the ref is set
    animationReq := none
    rafPending := if s.animationReq ≠ none then false else s.rafPending
    -- lines 642-644: close the export audio context
    audioCtxOpen := false
    -- lines 645-654: null all recorder handlers, stop it if active (the
    -- stop event then fires with no handler attached, so nothing re-enters),
    -- and null the ref
    recorder := none
    ffmpegFiles := s.ffmpegFiles
    downloads := s.downloads
    -- lines 657-676: repaint the preview canvas
    previewText :=
      if 100 ≤ s.exportProgress ∧ s.error = none then some "Export Complete!"
      else if s.error ≠ none ∧ status ≠ some "Setup failure" then some "Export Failed"
      else none
    -- ghost instrumentation: count executions of this routine
    cleanupRuns := s.cleanupRuns + 1 }

/-- The ordered codec/container preference list of commonExportSetup. -/
def mimeTypeCandidates : List String :=
  ["video/webm;codecs=vp9,opus",
   "video/webm;codecs=vp8,opus",
   "video/webm;codecs=vp9,vorbis",
   "video/webm;codecs=vp8,vorbis",
   "video/webm;codecs=h264,aac",
   "video/webm"]

/-- Scan of the candidate list: the index of the first entry the browser
reports as supported, if any. -/
def chooseMime (support : List Bool) : Option ℕ :=
  support.findIdx? (fun b => b)

/-- Host responses consumed by commonExportSetup: whether getContext
succeeds, whether the new audio context starts suspended and whether its
resume succeeds, the browser codec support answers for
mimeTypeCandidates, and the object URL created for the audio file. -/
structure SetupEnv where
  ctxOk : Bool
  resumeNeeded : Bool
  resumeOk : Bool
  mimeSupport : List Bool
  freshURL : String
deriving DecidableEq, Repr

/-- commonExportSetup from App.tsx lines 507-626.  Returns the updated
state and whether setup succeeded (a false result corresponds to the
function returning false).  Rejection paths before resource acquisition
return directly; the codec-negotiation failure routes through
cleanupExportResources as in the source. -/
def commonExportSetup (s : ExportState) (exportType : ExportType) (env : SetupEnv) :
    ExportState × Bool :=
  let s0 : ExportState := { s with exportStatusMessage := "Initializing export environment..." }
  if s0.audioFile = none ∨ s0.isExporting = true then
    ({ s0 with
        error := some (if s0.isExporting then "Export already in progress."
          else "Audio file needed for export."),
        exportStatusMessage := if s0.isExporting then "Export already in progress."
          else "Audio file needed for export." }, false)
  else if exportType = ExportType.mp4 ∧ s0.ffmpegLoaded = false then
    ({ s0 with error := some "MP4 export tools not ready.",
               exportStatusMessage := "MP4 export tools not ready." }, false)
  else
    let s1 : ExportState :=
      { s0 with error := none, isExporting := true, exportProgress := 0,
                        currentExportFrame := 0, totalExportFrames := 0,
                        recordedChunks := [],
                        exportStatusMessage := "Creating virtual render canvas...",
                        renderCanvasSet := true }
    if env.ctxOk = false then
      ({ s1 with error := some "Failed to create render canvas context for export.",
                 exportStatusMessage := "Failed to create render canvas context.",
                 isExporting := false }, false)
    else
      let s2 : ExportState :=
        { s1 with exportStatusMessage := "Setting up audio for export...",
                          exportAudio := some env.freshURL, audioURLOpen := true,
                          audioCtxOpen := true }
      if env.resumeNeeded = true ∧ env.resumeOk = false then
        ({ s2 with error := some "Failed to resume audio context for export.",
                   exportStatusMessage := "Export audio context resume failed.",
                   isExporting := false }, false)
      else
        let s3 : ExportState := { s2 with analyserSet := true }
        if s3.renderCanvasSet = false then
          (cleanupExportResources
            { s3 with error := some "Export render canvas not initialized.",
                      exportStatusMessage := "Export render canvas not initialized." }
            (some "Setup failure"), false)
        else
          let s4 : ExportState := { s3 with exportStatusMessage := "Configuring video recorder..." }
          match chooseMime env.mimeSupport with
          | none =>
            (cleanupExportResources
              { s4 with error := some "No suitable WebM codecs supported for recording.",
                        exportStatusMessage := "MediaRecorder codec support issue." }
              (some "MediaRecorder codec failure"), false)
          | some _ =>
            ({ s4 with recorder := some ⟨RecState.inactive, false, false, false, false, false⟩,
                       exportStatusMessage := "Recorder configured." }, true)

/-- Assignment of the ondataavailable and onstop handlers done by
handleExportWebM (lines 705-739) and handleExportMP4 (lines 757-832)
before starting the render loop. -/
def installStopHandlers (s : ExportState) : ExportState :=
  { s with recorder := s.recorder.map (fun r => { r with hasOnData := true, hasOnStop := true }) }

/-- The ondataavailable handler (lines 705-707 / 757-759): appends the
chunk when its size is positive, provided the handler is still assigned. -/
def fireData (s : ExportState) (size : ℕ) : ExportState :=
  match s.recorder with
  | some r =>
    if r.hasOnData then
      if 0 < size then { s with recordedChunks := s.recordedChunks ++ [size] } else s
    else s
  | none => s

/-- MediaRecorder.stop as called by App.tsx code: on a recording recorder,
transition to inactive and mark the stop event pending dispatch. -/
def stopRecorder (s : ExportState) : ExportState :=
  match s.recorder with
  | some r =>
    if r.recState = RecState.recording then
      { s with recorder := some { r with recState := RecState.inactive, stopEventPending := true } }
    else s
  | none => s

/-- Dispatch of a pending recorder stop event: the installed onstop closure
handler runs exactly when the handler is still assigned.  After
cleanupExportResources the recorder ref is null, so nothing runs. -/
def fireStop (s : ExportState) (handler : ExportState → ExportState) : ExportState :=
  match s.recorder with
  | some r =>
    if r.stopEventPending then
      let s1 : ExportState := { s with recorder := some { r with stopEventPending := false } }
      if r.hasOnStop then handler s1 else s1
    else s
  | none => s

/-- cancelAnimationFrame on the pending callback (the ref itself is left
stale by renderFn, matching the source). -/
def cancelRaf (s : ExportState) : ExportState := { s with rafPending := false }

/-- The progress percentage Math.round((currentTime / duration) * 100)
computed by renderFn. -/
def recordingProgressPct (t d : ℚ) : ℤ := jsRound (t / d * 100)

/-- The progress value renderFn writes while recording (lines 929-932):
the raw percentage for WebM, min(50, round(pct * 0.5)) for MP4. -/
def recordingProgressWrite (ty : ExportType) (t d : ℚ) : ℤ :=
  match ty with
  | ExportType.webm => recordingProgressPct t d
  | ExportType.mp4 => min 50 (jsRound ((recordingProgressPct t d : ℚ) * (1/2)))

/-- The progress value written by the FFmpeg progress callback (lines
111-118): 50 + round(round(p * 100) / 2) for transcoder progress p. -/
def ffmpegProgressWrite (p : ℚ) : ℤ := 50 + jsRound ((jsRound (p * 100) : ℚ) / 2)

/-- One invocation of renderFn (lines 857-934) at audio clock t with total
duration d; renderOk is false when renderSingleFrame throws.  Mirrors the
source branch for branch: missing-ref exit, not-recording exit (with the
premature-stop error), the time-based stop once t is at or past d, the
render-error stop, and the continue branch that counts the frame, writes
progress and schedules the next callback. -/
def renderFnStep (s : ExportState) (t d : ℚ) (renderOk : Bool) (ty : ExportType) : ExportState :=
  if s.exportAudio = none ∨ s.analyserSet = false ∨ s.renderCanvasSet = false then
    cancelRaf s
  else
    match s.recorder with
    | none => cancelRaf s
    | some r =>
      if r.recState ≠ RecState.recording then
        let s1 : ExportState := cancelRaf s
        if r.recState = RecState.inactive ∧ s.recordedChunks = [] ∧ s.error = none then
          { s1 with error := some "MediaRecorder stopped prematurely without data.",
                    exportStatusMessage := "Recorder stopped before data capture." }
        else s1
      else if 0 < d ∧ d ≤ t then
        cancelRaf (stopRecorder { s with exportStatusMessage := "Audio ended. Stopping recorder..." })
      else if renderOk = false then
        cancelRaf (stopRecorder
          { s with error := some "Error rendering export frame.",
                   exportStatusMessage := "Frame render error." })
      else
        let n := s.currentExportFrame + 1
        let s2 : ExportState :=
          { s with currentExportFrame := n,
                           exportStatusMessage :=
                             if n % 10 = 0 ∨ n = 1 then "Rendering frame..."
                             else s.exportStatusMessage }
        let s3 : ExportState := if 0 < d then { s2 with exportProgress := recordingProgressWrite ty t d } else s2
        { s3 with rafPending := true, animationReq := some n }

/-- The onloadedmetadata handler installed by startExportRenderLoop (lines
936-1018): validates refs and duration, computes the estimated frame count
floor(duration * fps) for progress display, installs onstart/onerror, and
starts the recorder; dur = none models a NaN duration, startOk = false a
throwing MediaRecorder.start. -/
def onMetadata (s : ExportState) (dur : Option ℚ) (fps : ℕ) (startOk : Bool) : ExportState :=
  let s1 : ExportState := { s with exportStatusMessage := "Audio metadata loaded. Preparing recorder..." }
  if s1.exportAudio = none ∨ s1.recorder = none then
    cleanupExportResources
      { s1 with error := some "Audio or recorder missing after metadata load." }
      (some "Audio or recorder missing after metadata load.")
  else
    match dur with
    | none =>
      cleanupExportResources
        { s1 with error := some "Failed to get valid audio duration for export.",
                  exportStatusMessage := "Invalid audio duration for export." }
        (some "Invalid audio duration")
    | some d =>
      if d ≤ 0 then
        cleanupExportResources
          { s1 with error := some "Failed to get valid audio duration for export.",
                    exportStatusMessage := "Invalid audio duration for export." }
          (some "Invalid audio duration")
      else
        let s2 : ExportState :=
          { s1 with totalExportFrames := ⌊d * (fps : ℚ)⌋,
                            exportStatusMessage := "Total frames to render.",
                            previewText := none }
        let withHandlers : Option RecorderHandle :=
          s2.recorder.map (fun r => { r with hasOnStart := true, hasOnError := true })
        let s3 : ExportState :=
          { s2 with recorder := withHandlers,
                    exportStatusMessage := "Starting recorder..." }
        if startOk then
          let started : Option RecorderHandle :=
            s3.recorder.map (fun r => { r with recState := RecState.recording })
          { s3 with recorder := started }
        else
          cleanupExportResources
            { s3 with error := some "Failed to start MediaRecorder." }
            (some "Recorder start failed")

/-- The onstart handler (lines 969-994): plays the export audio and
schedules the first renderFn callback; on play failure, stops the recorder
if recording (routing cleanup through onstop) else cleans up directly. -/
def onStart (s : ExportState) (playOk : Bool) : ExportState :=
  let s1 : ExportState := { s with exportStatusMessage := "Recorder started. Playing audio for capture..." }
  if s1.exportAudio = none then
    match s1.recorder with
    | some r =>
      if r.recState = RecState.recording then
        stopRecorder { s1 with error := some "Export audio element missing when MediaRecorder started.",
                               exportStatusMessage := "Export audio missing at recorder start." }
      else
        cleanupExportResources
          { s1 with error := some "Export audio element missing when MediaRecorder started.",
                    exportStatusMessage := "Export audio missing at recorder start." }
          (some "Audio missing at recorder start, recorder not active")
    | none =>
      cleanupExportResources
        { s1 with error := some "Export audio element missing when MediaRecorder started.",
                  exportStatusMessage := "Export audio missing at recorder start." }
        (some "Audio missing at recorder start, recorder not active")
  else if playOk then
    { s1 with rafPending := true, animationReq := some 1 }
  else
    match s1.recorder with
    | some r =>
      if r.recState = RecState.recording then
        stopRecorder { s1 with error := some "Failed to start audio for export.",
                               exportStatusMessage := "Failed to start audio for export." }
      else
        cleanupExportResources
          { s1 with error := some "Failed to start audio for export.",
                    exportStatusMessage := "Failed to start audio for export." }
          (some "Audio play failed during export, recorder not active")
    | none =>
      cleanupExportResources
        { s1 with error := some "Failed to start audio for export.",
                  exportStatusMessage := "Failed to start audio for export." }
        (some "Audio play failed during export, recorder not active")

/-- The ref checks at the top of startExportRenderLoop (lines 845-850). -/
def startLoopInit (s : ExportState) : ExportState × Bool :=
  let s1 : ExportState := { s with exportStatusMessage := "Preparing render loop..." }
  if s1.exportAudio = none ∨ s1.analyserSet = false ∨ s1.recorder = none then
    (cleanupExportResources
      { s1 with error := some "Core export elements not ready for render loop.",
                exportStatusMessage := "Render loop setup failed: Missing elements." }
      (some "Render loop setup failure"), false)
  else
    ({ s1 with exportStatusMessage := "Loading export audio..." }, true)

/-- The onstop handler installed by handleExportWebM (lines 709-739):
discard-and-clean when an error is flagged and no chunk was captured;
otherwise set progress to 100, assemble the blob from all captured chunks,
fail on an empty blob, else offer the download and clean up. -/
def webmOnStop (s : ExportState) (w h fps : ℕ) (base : String) : ExportState :=
  if s.error ≠ none ∧ s.recordedChunks = [] then
    cleanupExportResources s (some "WebM export error during recording.")
  else
    let s1 : ExportState :=
      { s with exportProgress := 100,
                       exportStatusMessage := "WebM recording complete. Creating file..." }
    let blobSize := s1.recordedChunks.sum
    if blobSize = 0 then
      cleanupExportResources
        { s1 with error := some "WebM export resulted in an empty file.",
                  exportStatusMessage := "WebM export: Empty file produced." }
        (some "WebM empty file")
    else
      let s2 : ExportState :=
        { s1 with downloads := s1.downloads ++ [⟨base, w, h, fps, "webm", blobSize⟩],
                          exportStatusMessage := "WebM export finished and downloaded." }
      cleanupExportResources s2 (some "WebM export successful")

/-- The transcoder outcome for one MP4 conversion: writeFile throwing, exec
throwing, exec resolving (with the exit code the source discards) but
readFile throwing, or all three resolving with the given output size. -/
inductive FfmpegRun
  | writeFails
  | execFails
  | readFails (exitCode : ℤ)
  | completes (exitCode : ℤ) (outSize : ℕ)
deriving DecidableEq, Repr

/-- The onstop handler installed by handleExportMP4 (lines 761-832):
discard-and-clean when an error is flagged and no chunk was captured; set
progress to 50; fail on an empty intermediate blob or unloaded FFmpeg;
then write input.webm into the transcoder working store, exec, read
output.mp4 and offer it for download (whatever its size and whatever exit
code exec resolved with), delete the two working-store entries and set
progress to 100; any throw is caught, flags the error and resets progress
to 50; the finally clause always cleans up. -/
def mp4OnStop (s : ExportState) (w h fps : ℕ) (base : String) (run : FfmpegRun) : ExportState :=
  if s.error ≠ none ∧ s.recordedChunks = [] then
    cleanupExportResources s (some "MP4 export error during recording.")
  else
    let s1 : ExportState :=
      { s with exportProgress := 50,
                       exportStatusMessage := "WebM recording complete. Preparing for MP4 conversion..." }
    let blobSize := s1.recordedChunks.sum
    if blobSize = 0 then
      cleanupExportResources
        { s1 with error := some "Intermediate WebM for MP4 export was empty.",
                  exportStatusMessage := "MP4 export: Intermediate WebM empty." }
        (some "MP4 intermediate file empty")
    else if s1.ffmpegLoaded = false then
      cleanupExportResources
        { s1 with error := some "FFmpeg not loaded. Cannot export MP4.",
                  exportStatusMessage := "FFmpeg not loaded for MP4 conversion." }
        (some "FFmpeg not loaded")
    else
      match run with
      | FfmpegRun.writeFails =>
        cleanupExportResources
          { s1 with error := some "MP4 export failed during video processing.",
                    exportStatusMessage := "MP4 conversion failed.", exportProgress := 50 }
          (some "MP4 conversion failed. Cleaning up.")
      | FfmpegRun.execFails =>
        let s2 : ExportState := { s1 with ffmpegFiles := s1.ffmpegFiles ++ ["input.webm"] }
        cleanupExportResources
          { s2 with error := some "MP4 export failed during video processing.",
                    exportStatusMessage := "MP4 conversion failed.", exportProgress := 50 }
          (some "MP4 conversion failed. Cleaning up.")
      | FfmpegRun.readFails _ =>
        let s2 : ExportState := { s1 with ffmpegFiles := s1.ffmpegFiles ++ ["input.webm"] }
        cleanupExportResources
          { s2 with error := some "MP4 export failed during video processing.",
                    exportStatusMessage := "MP4 conversion failed.", exportProgress := 50 }
          (some "MP4 conversion failed. Cleaning up.")
      | FfmpegRun.completes _ outSize =>
        let s2 : ExportState := { s1 with ffmpegFiles := s1.ffmpegFiles ++ ["input.webm", "output.mp4"] }
        let s3 : ExportState :=
          { s2 with downloads := s2.downloads ++ [⟨base, w, h, fps, "mp4", outSize⟩],
                            exportStatusMessage := "Cleaning up FFmpeg files..." }
        let s4 : ExportState := { s3 with ffmpegFiles := (s3.ffmpegFiles.erase "input.webm").erase "output.mp4" }
        let s5 : ExportState :=
          { s4 with exportProgress := 100,
                            exportStatusMessage := "MP4 export finished and downloaded." }
        cleanupExportResources s5 (some "MP4 export complete. Cleaning up.")

/-- One scheduler event during recording: a rendered frame at audio clock t
(renderOk false when renderSingleFrame throws) or a recorder data chunk. -/
inductive ExpEvent
  | frame (t : ℚ) (renderOk : Bool)
  | data (size : ℕ)
deriving DecidableEq, Repr

/-- One scheduler step: a frame event runs the pending renderFn callback if
one is scheduled; a data event dispatches ondataavailable. -/
def stepEvent (d : ℚ) (ty : ExportType) (s : ExportState) : ExpEvent → ExportState
  | ExpEvent.frame t renderOk => if s.rafPending then renderFnStep s t d renderOk ty else s
  | ExpEvent.data size => fireData s size

/-- Run of a list of scheduler events. -/
def runEvents (d : ℚ) (ty : ExportType) (s : ExportState) : List ExpEvent → ExportState
  | [] => s
  | e :: rest => runEvents d ty (stepEvent d ty s e) rest

/-- The application state before any export has started; the concrete
values model a loaded audio file with FFmpeg ready. -/
def idleState : ExportState :=
  { audioFile := some "track.mp3"
    ffmpegLoaded := true
    isExporting := false
    error := none
    exportStatusMessage := ""
    exportProgress := 0
    currentExportFrame := 0
    totalExportFrames := 0
    recordedChunks := []
    exportAudio := none
    audioURLOpen := false
    analyserSet := false
    renderCanvasSet := false
    animationReq := none
    rafPending := false
    audioCtxOpen := false
    recorder := none
    ffmpegFiles := []
    downloads := []
    previewText := none
    cleanupRuns := 0 }

/-- A SetupEnv in which every host interaction succeeds and the first codec
candidate is supported. -/
def envAllOk : SetupEnv :=
  { ctxOk := true, resumeNeeded := false, resumeOk := true,
    mimeSupport := [true, true, true, true, true, true], freshURL := "blob-export-audio" }

/-- The state at the moment the export drive loop is first scheduled:
commonExportSetup, handler installation, startExportRenderLoop entry,
onloadedmetadata (valid duration d, recorder start succeeding) and onstart
(audio play succeeding), composed in source order. -/
def sessionStart (ty : ExportType) (d : ℚ) (fps : ℕ) : ExportState :=
  onStart
    (onMetadata
      (startLoopInit (installStopHandlers (commonExportSetup idleState ty envAllOk).1)).1
      (some d) fps true)
    true

/-- The progress values written over one full WebM export session in their
write order: 0 at setup (line 527), one recording write per rendered frame
(lines 929-932), and 100 in the onstop handler (line 715). -/
def webmProgressTrace (ts : List ℚ) (d : ℚ) : List ℤ :=
  0 :: (ts.map (fun t => recordingProgressWrite ExportType.webm t d) ++ [100])

/-- The progress values written over one full successful MP4 export session
in their write order: 0 at setup, one capped recording write per rendered
frame, 50 at the start of the onstop handler (line 767), one write per
FFmpeg progress callback (line 114), and 100 on conversion success
(line 819). -/
def mp4ProgressTrace (ts ps : List ℚ) (d : ℚ) : List ℤ :=
  0 :: (ts.map (fun t => recordingProgressWrite ExportType.mp4 t d) ++
    (50 :: (ps.map ffmpegProgressWrite ++ [100])))

/-- A scheduler event that keeps the drive loop alive: a frame strictly
before the end of the audio that renders successfully, or any data chunk. -/
def EvKeepsLive (d : ℚ) : ExpEvent → Prop
  | ExpEvent.frame t renderOk => t < d ∧ renderOk = true
  | ExpEvent.data _ => True

/-- The invariant of an actively recording export session between frames:
all refs alive, a callback scheduled, the recorder recording with its
handlers installed, no error, no cleanup performed, the transcoder store
empty. -/
def LiveLoop (s : ExportState) : Prop :=
  (∃ u, s.exportAudio = some u) ∧ s.analyserSet = true ∧ s.renderCanvasSet = true ∧
  s.rafPending = true ∧ (∃ k, s.animationReq = some k) ∧ s.cleanupRuns = 0 ∧
  s.error = none ∧ s.ffmpegLoaded = true ∧ s.ffmpegFiles = [] ∧
  (∃ r, s.recorder = some r ∧ r.recState = RecState.recording ∧ r.hasOnStop = true ∧
    r.hasOnData = true ∧ r.stopEventPending = false)

/-- Every session resource except the transcoder working store is
released: export flag down, audio element and its object URL gone,
analyser, off-screen canvas, scheduled callback, audio context, recorder
and captured chunks all dropped. -/
def ReleasedCore (s : ExportState) : Prop :=
  s.isExporting = false ∧ s.exportAudio = none ∧ s.audioURLOpen = false ∧
  s.analyserSet = false ∧ s.renderCanvasSet = false ∧ s.animationReq = none ∧
  s.rafPending = false ∧ s.audioCtxOpen = false ∧ s.recorder = none ∧
  s.recordedChunks = []

/-- A full WebM session that runs the given mid-session events and then a
frame at or past the audio duration, followed by the recorder stop event
dispatching the WebM onstop handler. -/
def webmSuccessRun (evs : List ExpEvent) (tEnd d : ℚ) (fps : ℕ) : ExportState :=
  fireStop
    (runEvents d ExportType.webm (sessionStart ExportType.webm d fps)
      (evs ++ [ExpEvent.frame tEnd true]))
    (fun s2 => webmOnStop s2 640 360 fps "track")

/-- A WebM session in which, after the given mid-session events, a frame
render throws mid-capture; the loop stops the recorder and the stop event
dispatches the WebM onstop handler. -/
def webmRenderErrorRun (evs : List ExpEvent) (tErr d : ℚ) (fps : ℕ) : ExportState :=
  fireStop
    (runEvents d ExportType.webm (sessionStart ExportType.webm d fps)
      (evs ++ [ExpEvent.frame tErr false]))
    (fun s2 => webmOnStop s2 640 360 fps "track")

/-- A session whose codec negotiation fails: commonExportSetup run against
a browser reporting the given codec support answers. -/
def codecFailureRun (support : List Bool) : ExportState :=
  (commonExportSetup idleState ExportType.webm
    { ctxOk := true, resumeNeeded := false, resumeOk := true, mimeSupport := support,
      freshURL := "blob-export-audio" }).1

/-- A session in which MediaRecorder.start throws: setup and handler
installation succeed, then onloadedmetadata runs with startOk false. -/
def recorderStartFailureRun (d : ℚ) (fps : ℕ) : ExportState :=
  onMetadata
    (startLoopInit (installStopHandlers (commonExportSetup idleState ExportType.webm envAllOk).1)).1
    (some d) fps false

/-- A full successful MP4 session: mid-session events, a final data chunk,
the closing frame, then the stop event dispatching the MP4 onstop handler
with the transcoder completing. -/
def mp4SuccessRun (evs : List ExpEvent) (c : ℕ) (tEnd d : ℚ) (fps : ℕ) (outSize : ℕ) :
    ExportState :=
  fireStop
    (runEvents d ExportType.mp4 (sessionStart ExportType.mp4 d fps)
      (evs ++ [ExpEvent.data (c + 1), ExpEvent.frame tEnd true]))
    (fun s2 => mp4OnStop s2 640 360 fps "track" (FfmpegRun.completes 0 outSize))

/-- An MP4 session whose transcode fails: mid-session events, a final data
chunk, the closing frame, then the stop event dispatching the MP4 onstop
handler with ffmpeg.exec throwing after input.webm was written. -/
def transcodeFailureRun (evs : List ExpEvent) (c : ℕ) (tEnd d : ℚ) (fps : ℕ) : ExportState :=
  fireStop
    (runEvents d ExportType.mp4 (sessionStart ExportType.mp4 d fps)
      (evs ++ [ExpEvent.data (c + 1), ExpEvent.frame tEnd true]))
    (fun s2 => mp4OnStop s2 640 360 fps "track" FfmpegRun.execFails)

/-- The drawImageCore props used by the pulse-overflow evaluation: circular
visualization, imageScale 1, pulse enabled at intensity 1. -/
def pulseProps : ImageProps :=
  { visualizationType := VisualizationType.circular, imageScale := 1, pulseIntensity := 1,
    imageCornerRadius := 0, imageSwingIntensity := 0, enablePulse := true, enableSwing := false,
    currentTime := 0 }

end AudioVis
namespace AudioVis

/-- Claim C10 (confirmed): the center-image overlay saves and restores the context, so the transform, the clip region, the alpha and the save stack after the call equal their values before it. -/
theorem drawImageCore_restores_context (ctx : Ctx) (img : ImageDims)
    (audioData : Option (List ℕ)) (canvasW canvasH : ℚ) (props : ImageProps) (react : Bool) :
    (drawImageCore ctx img audioData canvasW canvasH props react).alpha = ctx.alpha ∧
    (drawImageCore ctx img audioData canvasW canvasH props react).transform = ctx.transform ∧
    (drawImageCore ctx img audioData canvasW canvasH props react).clipRegions = ctx.clipRegions ∧
    (drawImageCore ctx img audioData canvasW canvasH props react).stack = ctx.stack := by
  unfold drawImageCore
  dsimp only
  split_ifs <;> exact ⟨rfl, rfl, rfl, rfl⟩

/-- Claim C9 (confirmed): single-frame rendering is deterministic: it depends only on the explicit arguments, never on the host environment, so identical inputs produce identical output. -/
theorem renderSingleFrame_host_independent (h1 h2 : HostEnv) (ctx : Ctx)
    (frequencyData timeDomainData : List ℕ) (props : RenderProps) :
    renderSingleFrame h1 ctx frequencyData timeDomainData props =
      renderSingleFrame h2 ctx frequencyData timeDomainData props := rfl

/-- Claim C5 (confirmed): a drawn circular bar of length at least one is rendered as a capsule exactly when its length exceeds its half-thickness, the cap radius, and as a plain rectangle exactly otherwise. -/
theorem circularBarGeom_shape (barLength barVisualThickness innerRadius : ℚ)
    (hth : 0 < barVisualThickness) (hlen : 1 ≤ barLength) :
    ((circularBarGeom barLength barVisualThickness innerRadius).isCapsule = true ↔
      barVisualThickness / 2 < barLength) ∧
    ((circularBarGeom barLength barVisualThickness innerRadius).isRectangle = true ↔
      barLength ≤ barVisualThickness / 2) := by
  unfold circularBarGeom
  have h1 : ¬ barLength < 1 := by linarith
  have hcap : 0 < barVisualThickness / 2 := by linarith
  rw [if_neg h1]
  by_cases h2 : barVisualThickness / 2 < barLength
  · have h3 : barVisualThickness / 2 * (1/2) < barLength := by linarith
    rw [if_pos ⟨h3, hcap⟩, if_pos h2]
    refine ⟨?_, ?_⟩ <;> simp [BarGeom.isCapsule, BarGeom.isRectangle] <;> linarith
  · by_cases h3 : barVisualThickness / 2 * (1/2) < barLength
    · rw [if_pos ⟨h3, hcap⟩, if_neg h2]
      refine ⟨?_, ?_⟩ <;> simp [BarGeom.isCapsule, BarGeom.isRectangle] <;> linarith
    · rw [if_neg (by tauto : ¬ (barVisualThickness / 2 * (1/2) < barLength ∧ 0 < barVisualThickness / 2))]
      rw [if_pos (by linarith : (0:ℚ) < barLength)]
      refine ⟨?_, ?_⟩ <;> simp [BarGeom.isCapsule, BarGeom.isRectangle] <;> linarith

end AudioVis

namespace AudioVis

theorem imageBeatScale_nonneg (react ep : Bool) (ad : Option (List ℕ)) (pIntensity : ℚ) :
    0 ≤ imageBeatScale react ep ad pIntensity := by
  unfold imageBeatScale
  cases ad with
  | none => norm_num
  | some l =>
    dsimp only
    split_ifs with h
    · have h4 : 0 < pIntensity := h.2.2.2
      have hs : (0:ℚ) ≤ (l.sum : ℚ) / (l.length : ℚ) / 255 := by positivity
      nlinarith
    · norm_num

/-- Claim C4 (corrected): the fitted image dimensions stay within canvasDimension divided by baseScaleFactor times imageScale only up to the beat factor; the audio-reactive pulse multiplies the dimensions afterwards, so with pulse enabled the stated ceiling can be exceeded. -/
theorem imageDrawSize_bounded (img : ImageDims) (audioData : Option (List ℕ))
    (canvasW canvasH : ℚ) (props : ImageProps) (react : Bool)
    (hW : 0 < img.natW) (hH : 0 < img.natH) :
    (imageDrawSize img audioData canvasW canvasH props react).1 ≤
      canvasW / (if props.visualizationType = VisualizationType.circular then 3 else 5/2) *
        props.imageScale * imageBeatScale react props.enablePulse audioData props.pulseIntensity ∧
    (imageDrawSize img audioData canvasW canvasH props react).2 ≤
      canvasH / (if props.visualizationType = VisualizationType.circular then 3 else 5/2) *
        props.imageScale * imageBeatScale react props.enablePulse audioData props.pulseIntensity ∧
    (props.enablePulse = false →
      imageBeatScale react props.enablePulse audioData props.pulseIntensity = 1) := by
  have hb : 0 ≤ imageBeatScale react props.enablePulse audioData props.pulseIntensity :=
    imageBeatScale_nonneg _ _ _ _
  unfold imageDrawSize
  set b := imageBeatScale react props.enablePulse audioData props.pulseIntensity with hbdef
  set base : ℚ := if props.visualizationType = VisualizationType.circular then 3 else 5/2 with hbase
  dsimp only
  set maxW := canvasW / base * props.imageScale with hmW
  set maxH := canvasH / base * props.imageScale with hmH
  set fit := min (min (maxW / img.natW) (maxH / img.natH)) (1 * props.imageScale) with hfit
  refine ⟨?_, ?_, ?_⟩
  · have h1 : fit ≤ maxW / img.natW := le_trans (min_le_left _ _) (min_le_left _ _)
    have h2 : fit * img.natW ≤ maxW := (le_div_iff₀ hW).mp h1
    have h3 : img.natW * fit ≤ maxW := by linarith [h2, mul_comm fit img.natW]
    calc img.natW * fit * b ≤ maxW * b := mul_le_mul_of_nonneg_right h3 hb
      _ = maxW * b := rfl
  · have h1 : fit ≤ maxH / img.natH := le_trans (min_le_left _ _) (min_le_right _ _)
    have h2 : fit * img.natH ≤ maxH := (le_div_iff₀ hH).mp h1
    have h3 : img.natH * fit ≤ maxH := by linarith [h2, mul_comm fit img.natH]
    exact mul_le_mul_of_nonneg_right h3 hb
  · intro hep
    rw [hbdef]
    unfold imageBeatScale
    cases audioData with
    | none => rfl
    | some l => simp [hep]

theorem pulse_exceeds_base_bound :
    (imageDrawSize ⟨200, 200, 0⟩ (some [255]) 300 300 pulseProps true).1 = 120 ∧
    (300 : ℚ) / 3 * 1 = 100 ∧ (100 : ℚ) < 120 ∧ pulseProps.enablePulse = true := by
  refine ⟨?_, by norm_num, by norm_num, rfl⟩
  norm_num [imageDrawSize, imageBeatScale, pulseProps]

/-- Claim C8 (confirmed): starting an export while one is active is rejected outright and the rejection leaves the active session state untouched: recorder, chunks, progress, counters and resources all keep their values. -/
theorem commonExportSetup_rejects_active (s : ExportState) (ty : ExportType) (env : SetupEnv)
    (h : s.isExporting = true) :
    (commonExportSetup s ty env).2 = false ∧
    (commonExportSetup s ty env).1.isExporting = true ∧
    (commonExportSetup s ty env).1.recorder = s.recorder ∧
    (commonExportSetup s ty env).1.recordedChunks = s.recordedChunks ∧
    (commonExportSetup s ty env).1.exportProgress = s.exportProgress ∧
    (commonExportSetup s ty env).1.currentExportFrame = s.currentExportFrame ∧
    (commonExportSetup s ty env).1.totalExportFrames = s.totalExportFrames ∧
    (commonExportSetup s ty env).1.exportAudio = s.exportAudio ∧
    (commonExportSetup s ty env).1.audioURLOpen = s.audioURLOpen ∧
    (commonExportSetup s ty env).1.analyserSet = s.analyserSet ∧
    (commonExportSetup s ty env).1.renderCanvasSet = s.renderCanvasSet ∧
    (commonExportSetup s ty env).1.animationReq = s.animationReq ∧
    (commonExportSetup s ty env).1.rafPending = s.rafPending ∧
    (commonExportSetup s ty env).1.audioCtxOpen = s.audioCtxOpen ∧
    (commonExportSetup s ty env).1.ffmpegFiles = s.ffmpegFiles ∧
    (commonExportSetup s ty env).1.downloads = s.downloads ∧
    (commonExportSetup s ty env).1.cleanupRuns = s.cleanupRuns := by
  unfold commonExportSetup
  rw [if_pos (Or.inr (by simp [h]))]
  simp [h]

end AudioVis

namespace AudioVis

/-- Claim C6 (confirmed): the export loop is time based: the estimated frame count equals the floor of duration times fps and feeds only the progress display, while rescheduling depends solely on whether the playback time is still below the duration, independent of the frame counters. -/
theorem exportLoop_time_based (s : ExportState) (r : RecorderHandle) (u : String)
    (t d : ℚ) (ty : ExportType) (n n2 : ℕ) (m m2 : ℤ) (fps : ℕ)
    (haud : s.exportAudio = some u) (han : s.analyserSet = true) (hcv : s.renderCanvasSet = true)
    (hrec : s.recorder = some r) (hrs : r.recState = RecState.recording) (hd : 0 < d) :
    (onMetadata s (some d) fps true).totalExportFrames = ⌊d * (fps : ℚ)⌋ ∧
    ((renderFnStep { s with currentExportFrame := n, totalExportFrames := m } t d true
        ty).rafPending = true ↔ t < d) ∧
    ((renderFnStep { s with currentExportFrame := n, totalExportFrames := m } t d true
        ty).rafPending =
      (renderFnStep { s with currentExportFrame := n2, totalExportFrames := m2 } t d true
        ty).rafPending) ∧
    (t < d →
      (renderFnStep { s with currentExportFrame := n, totalExportFrames := m } t d true
          ty).exportProgress = recordingProgressWrite ty t d) := by
  have key : ∀ (a : ℕ) (b : ℤ),
      ((renderFnStep { s with currentExportFrame := a, totalExportFrames := b } t d true
          ty).rafPending = if t < d then true else false) ∧
      (t < d → (renderFnStep { s with currentExportFrame := a, totalExportFrames := b } t d true
          ty).exportProgress = recordingProgressWrite ty t d) := by
    intro a b
    unfold renderFnStep cancelRaf stopRecorder
    simp only [haud, han, hcv, hrec, hrs]
    by_cases hlt : t < d
    · have hnle : ¬ d ≤ t := not_le.mpr hlt
      simp [hnle, hlt, hd]
    · have hge : d ≤ t := le_of_not_lt hlt
      simp [hlt, hd, hge, hrs]
  refine ⟨?_, ?_, ?_, ?_⟩
  · unfold onMetadata
    simp [haud, hrec, not_le.mpr hd]
  · rw [(key n m).1]
    by_cases hlt : t < d <;> simp [hlt]
  · rw [(key n m).1, (key n2 m2).1]
  · exact (key n m).2

end AudioVis

namespace AudioVis

theorem jsRound_mono {a b : ℚ} (h : a ≤ b) : jsRound a ≤ jsRound b :=
  Int.floor_le_floor (by linarith)

theorem jsRound_nonneg {a : ℚ} (h : 0 ≤ a) : 0 ≤ jsRound a :=
  Int.le_floor.mpr (by push_cast; linarith)

theorem jsRound_le_of_le {a : ℚ} {k : ℤ} (h : a ≤ (k : ℚ)) : jsRound a ≤ k := by
  have h2 : jsRound a < k + 1 := Int.floor_lt.mpr (by push_cast; linarith)
  omega

theorem recordingProgressPct_nonneg {t d : ℚ} (ht : 0 ≤ t) (hd : 0 < d) :
    0 ≤ recordingProgressPct t d := by
  unfold recordingProgressPct
  exact jsRound_nonneg (by positivity)

theorem recordingProgressPct_le_100 {t d : ℚ} (htd : t < d) (hd : 0 < d) :
    recordingProgressPct t d ≤ 100 := by
  unfold recordingProgressPct
  have h1 : t / d < 1 := (div_lt_one hd).mpr htd
  exact jsRound_le_of_le (by push_cast; nlinarith)

theorem recordingProgressPct_mono {t t2 d : ℚ} (h : t ≤ t2) (hd : 0 < d) :
    recordingProgressPct t d ≤ recordingProgressPct t2 d := by
  unfold recordingProgressPct
  have hq : t / d ≤ t2 / d := by gcongr
  exact jsRound_mono (by nlinarith [hq])

theorem recordingProgressWrite_nonneg (ty : ExportType) {t d : ℚ} (ht : 0 ≤ t) (hd : 0 < d) :
    0 ≤ recordingProgressWrite ty t d := by
  cases ty with
  | webm => exact recordingProgressPct_nonneg ht hd
  | mp4 =>
    unfold recordingProgressWrite
    have h1 : 0 ≤ recordingProgressPct t d := recordingProgressPct_nonneg ht hd
    have h1q : (0:ℚ) ≤ (recordingProgressPct t d : ℚ) := by exact_mod_cast h1
    have h2 : 0 ≤ jsRound ((recordingProgressPct t d : ℚ) * (1/2)) := by
      apply jsRound_nonneg
      nlinarith [h1q]
    simp only [le_min_iff]
    constructor
    · norm_num
    · exact h2

theorem recordingProgressWrite_le_100 (ty : ExportType) {t d : ℚ} (htd : t < d) (hd : 0 < d) :
    recordingProgressWrite ty t d ≤ 100 := by
  cases ty with
  | webm => exact recordingProgressPct_le_100 htd hd
  | mp4 =>
    unfold recordingProgressWrite
    calc min 50 (jsRound ((recordingProgressPct t d : ℚ) * (1/2))) ≤ 50 := min_le_left _ _
      _ ≤ 100 := by norm_num

theorem recordingProgressWrite_mp4_le_50 {t d : ℚ} :
    recordingProgressWrite ExportType.mp4 t d ≤ 50 := min_le_left _ _

theorem recordingProgressWrite_mono (ty : ExportType) {t t2 d : ℚ} (h : t ≤ t2) (hd : 0 < d) :
    recordingProgressWrite ty t d ≤ recordingProgressWrite ty t2 d := by
  cases ty with
  | webm => exact recordingProgressPct_mono h hd
  | mp4 =>
    unfold recordingProgressWrite
    have h1 : recordingProgressPct t d ≤ recordingProgressPct t2 d :=
      recordingProgressPct_mono h hd
    have h1q : ((recordingProgressPct t d : ℚ)) ≤ ((recordingProgressPct t2 d : ℚ)) := by
      exact_mod_cast h1
    apply min_le_min le_rfl
    apply jsRound_mono
    nlinarith [h1q]

theorem ffmpegProgressWrite_ge_50 {p : ℚ} (hp : 0 ≤ p) : 50 ≤ ffmpegProgressWrite p := by
  unfold ffmpegProgressWrite
  have h1 : 0 ≤ jsRound (p * 100) := jsRound_nonneg (by nlinarith)
  have h2 : 0 ≤ jsRound ((jsRound (p * 100) : ℚ) / 2) := by
    apply jsRound_nonneg
    positivity
  omega

theorem ffmpegProgressWrite_le_100 {p : ℚ} (hp : p ≤ 1) : ffmpegProgressWrite p ≤ 100 := by
  unfold ffmpegProgressWrite
  have h1 : jsRound (p * 100) ≤ 100 := jsRound_le_of_le (by push_cast; nlinarith)
  have h1q : ((jsRound (p * 100) : ℚ)) ≤ 100 := by exact_mod_cast h1
  have h2 : jsRound ((jsRound (p * 100) : ℚ) / 2) ≤ 50 := by
    apply jsRound_le_of_le
    push_cast
    linarith
  omega

theorem ffmpegProgressWrite_mono {p q : ℚ} (h : p ≤ q) :
    ffmpegProgressWrite p ≤ ffmpegProgressWrite q := by
  unfold ffmpegProgressWrite
  have h1 : jsRound (p * 100) ≤ jsRound (q * 100) := jsRound_mono (by nlinarith)
  have h1q : ((jsRound (p * 100) : ℚ)) ≤ ((jsRound (q * 100) : ℚ)) := by exact_mod_cast h1
  have h2 : jsRound ((jsRound (p * 100) : ℚ) / 2) ≤ jsRound ((jsRound (q * 100) : ℚ) / 2) := by
    apply jsRound_mono
    linarith
  omega

theorem chainMapApp (f : ℚ → ℤ) (P : ℚ → Prop) (tail : List ℤ) (bound : ℤ)
    (hmono : ∀ a b, P a → P b → a ≤ b → f a ≤ f b)
    (hbd : ∀ a, P a → f a ≤ bound)
    (htail : tail.Chain' (· ≤ ·)) (hhead : ∀ y ∈ tail.head?, bound ≤ y) :
    ∀ l : List ℚ, l.Chain' (· ≤ ·) → (∀ x ∈ l, P x) →
      (l.map f ++ tail).Chain' (· ≤ ·) := by
  intro l
  induction l with
  | nil => intro _ _; simpa using htail
  | cons a l ih =>
    intro hc hP
    have hPa : P a := hP a (List.mem_cons_self a l)
    have hPl : ∀ x ∈ l, P x := fun x hx => hP x (List.mem_cons_of_mem a hx)
    have hcl : l.Chain' (· ≤ ·) := hc.tail
    rw [List.map_cons, List.cons_append, List.chain'_cons']
    refine ⟨?_, ih hcl hPl⟩
    intro b hb
    cases l with
    | nil =>
      simp only [List.map_nil, List.nil_append] at hb
      have hfa : f a ≤ bound := hbd a hPa
      have := hhead b hb
      omega
    | cons c l2 =>
      simp only [List.map_cons, List.cons_append, List.head?_cons, Option.mem_def,
        Option.some.injEq] at hb
      subst hb
      apply hmono a c hPa (hPl c (List.mem_cons_self c l2))
      rcases List.chain'_cons.mp hc with ⟨hac, _⟩
      exact hac

end AudioVis

namespace AudioVis

/-- Claim C7 (confirmed): over a full session trace, every value written to the export progress indicator lies in the range 0 to 100 and the written sequence is non-decreasing, on both the WebM and the MP4 path. -/
theorem exportProgress_monotone_bounded (ts ps : List ℚ) (d : ℚ) (hd : 0 < d)
    (hts : ts.Chain' (· ≤ ·)) (htb : ∀ t ∈ ts, 0 ≤ t ∧ t < d)
    (hps : ps.Chain' (· ≤ ·)) (hpb : ∀ p ∈ ps, 0 ≤ p ∧ p ≤ 1) :
    (webmProgressTrace ts d).Chain' (· ≤ ·) ∧
    (∀ v ∈ webmProgressTrace ts d, 0 ≤ v ∧ v ≤ 100) ∧
    (mp4ProgressTrace ts ps d).Chain' (· ≤ ·) ∧
    (∀ v ∈ mp4ProgressTrace ts ps d, 0 ≤ v ∧ v ≤ 100) := by
  have hmonoW : ∀ a b, (0 ≤ a ∧ a < d) → (0 ≤ b ∧ b < d) → a ≤ b →
      recordingProgressWrite ExportType.webm a d ≤ recordingProgressWrite ExportType.webm b d :=
    fun a b _ _ hab => recordingProgressWrite_mono _ hab hd
  have hmonoM : ∀ a b, (0 ≤ a ∧ a < d) → (0 ≤ b ∧ b < d) → a ≤ b →
      recordingProgressWrite ExportType.mp4 a d ≤ recordingProgressWrite ExportType.mp4 b d :=
    fun a b _ _ hab => recordingProgressWrite_mono _ hab hd
  have hbdW : ∀ a, (0 ≤ a ∧ a < d) → recordingProgressWrite ExportType.webm a d ≤ 100 :=
    fun a ha => recordingProgressWrite_le_100 _ ha.2 hd
  have hbdM : ∀ a, (0 ≤ a ∧ a < d) → recordingProgressWrite ExportType.mp4 a d ≤ 50 :=
    fun a _ => recordingProgressWrite_mp4_le_50
  have hmonoF : ∀ a b, (0 ≤ a ∧ a ≤ 1) → (0 ≤ b ∧ b ≤ 1) → a ≤ b →
      ffmpegProgressWrite a ≤ ffmpegProgressWrite b :=
    fun a b _ _ hab => ffmpegProgressWrite_mono hab
  have hbdF : ∀ a, (0 ≤ a ∧ a ≤ 1) → ffmpegProgressWrite a ≤ 100 :=
    fun a ha => ffmpegProgressWrite_le_100 ha.2
  have hchainW : ((ts.map (fun t => recordingProgressWrite ExportType.webm t d)) ++
      [100]).Chain' (· ≤ ·) := by
    apply chainMapApp _ (fun t => 0 ≤ t ∧ t < d) _ 100 hmonoW hbdW
    · simp
    · intro y hy
      simp only [List.head?_cons, Option.mem_def, Option.some.injEq] at hy
      omega
    · exact hts
    · exact htb
  have hinner2 : ((ps.map ffmpegProgressWrite) ++ [100]).Chain' (· ≤ ·) := by
    apply chainMapApp _ (fun p => 0 ≤ p ∧ p ≤ 1) _ 100 hmonoF hbdF
    · simp
    · intro y hy
      simp only [List.head?_cons, Option.mem_def, Option.some.injEq] at hy
      omega
    · exact hps
    · exact hpb
  have hinner1 : ((50 : ℤ) :: ((ps.map ffmpegProgressWrite) ++ [100])).Chain' (· ≤ ·) := by
    rw [List.chain'_cons']
    refine ⟨?_, hinner2⟩
    intro b hb
    cases ps with
    | nil =>
      simp only [List.map_nil, List.nil_append, List.head?_cons, Option.mem_def,
        Option.some.injEq] at hb
      omega
    | cons p ps2 =>
      simp only [List.map_cons, List.cons_append, List.head?_cons, Option.mem_def,
        Option.some.injEq] at hb
      subst hb
      exact ffmpegProgressWrite_ge_50 (hpb p (List.mem_cons_self p ps2)).1
  have hchainM : ((ts.map (fun t => recordingProgressWrite ExportType.mp4 t d)) ++
      ((50 : ℤ) :: ((ps.map ffmpegProgressWrite) ++ [100]))).Chain' (· ≤ ·) := by
    apply chainMapApp _ (fun t => 0 ≤ t ∧ t < d) _ 50 hmonoM hbdM hinner1
    · intro y hy
      simp only [List.head?_cons, Option.mem_def, Option.some.injEq] at hy
      omega
    · exact hts
    · exact htb
  refine ⟨?_, ?_, ?_, ?_⟩
  · unfold webmProgressTrace
    rw [List.chain'_cons']
    refine ⟨?_, hchainW⟩
    intro b hb
    cases ts with
    | nil =>
      simp only [List.map_nil, List.nil_append, List.head?_cons, Option.mem_def,
        Option.some.injEq] at hb
      omega
    | cons t ts2 =>
      simp only [List.map_cons, List.cons_append, List.head?_cons, Option.mem_def,
        Option.some.injEq] at hb
      subst hb
      exact recordingProgressWrite_nonneg _ (htb t (List.mem_cons_self t ts2)).1 hd
  · intro v hv
    unfold webmProgressTrace at hv
    simp only [List.mem_cons, List.mem_append, List.mem_map, List.mem_singleton] at hv
    rcases hv with h0 | ⟨⟨t, ht, hft⟩ | h100⟩
    · omega
    · subst hft
      have h1 := recordingProgressWrite_nonneg ExportType.webm (htb t ht).1 hd
      have h2 := recordingProgressWrite_le_100 ExportType.webm (htb t ht).2 hd
      omega
    · simp only [List.mem_singleton, List.mem_cons, List.not_mem_nil, or_false] at h100
      omega
  · unfold mp4ProgressTrace
    rw [List.chain'_cons']
    refine ⟨?_, hchainM⟩
    intro b hb
    cases ts with
    | nil =>
      simp only [List.map_nil, List.nil_append, List.head?_cons, Option.mem_def,
        Option.some.injEq] at hb
      omega
    | cons t ts2 =>
      simp only [List.map_cons, List.cons_append, List.head?_cons, Option.mem_def,
        Option.some.injEq] at hb
      subst hb
      exact recordingProgressWrite_nonneg _ (htb t (List.mem_cons_self t ts2)).1 hd
  · intro v hv
    unfold mp4ProgressTrace at hv
    simp only [List.mem_cons, List.mem_append, List.mem_map, List.mem_singleton] at hv
    rcases hv with h0 | ⟨⟨t, ht, hft⟩ | h50 | ⟨⟨p, hp, hfp⟩ | h100⟩⟩
    · omega
    · subst hft
      have h1 := recordingProgressWrite_nonneg ExportType.mp4 (htb t ht).1 hd
      have h2 : recordingProgressWrite ExportType.mp4 t d ≤ 50 := recordingProgressWrite_mp4_le_50
      omega
    · omega
    · subst hfp
      have h1 := ffmpegProgressWrite_ge_50 (hpb p hp).1
      have h2 := ffmpegProgressWrite_le_100 (hpb p hp).2
      omega
    · simp only [List.mem_singleton, List.mem_cons, List.not_mem_nil, or_false] at h100
      omega

end AudioVis

namespace AudioVis

theorem cleanup_downloads (s : ExportState) (st : Option String) :
    (cleanupExportResources s st).downloads = s.downloads := rfl

theorem cleanup_runs (s : ExportState) (st : Option String) :
    (cleanupExportResources s st).cleanupRuns = s.cleanupRuns + 1 := rfl

theorem cleanup_ffmpegFiles (s : ExportState) (st : Option String) :
    (cleanupExportResources s st).ffmpegFiles = s.ffmpegFiles := rfl

theorem cleanup_progress (s : ExportState) (st : Option String) :
    (cleanupExportResources s st).exportProgress = s.exportProgress := rfl

theorem cleanup_error (s : ExportState) (st : Option String) :
    (cleanupExportResources s st).error = s.error := rfl

theorem cleanup_chunks (s : ExportState) (st : Option String) :
    (cleanupExportResources s st).recordedChunks = [] := rfl

theorem cleanup_released (s : ExportState) (st : Option String)
    (hraf : s.animationReq = none → s.rafPending = false)
    (hurl : s.exportAudio = none → s.audioURLOpen = false) :
    ReleasedCore (cleanupExportResources s st) := by
  unfold ReleasedCore cleanupExportResources
  refine ⟨rfl, rfl, ?_, rfl, rfl, rfl, ?_, rfl, rfl, rfl⟩
  · by_cases h : s.exportAudio = none
    · simp [h, hurl h]
    · simp [h]
  · by_cases h : s.animationReq = none
    · simp [h, hraf h]
    · simp [h]

end AudioVis

namespace AudioVis

/-- Claim C1 (corrected): the WebM onstop handler discards captured chunks only when an error is set and the chunk list is empty; when a render error occurred after chunks were captured, the handler still assembles them and offers the partial file for download, so a failed session is not binary. -/
theorem webmOnStop_partial_artifact (s : ExportState) (w h fps : ℕ) (base : String)
    (hErr : s.error ≠ none) :
    (s.recordedChunks.sum = 0 → (webmOnStop s w h fps base).downloads = s.downloads) ∧
    (0 < s.recordedChunks.sum →
      (webmOnStop s w h fps base).downloads =
        s.downloads ++ [⟨base, w, h, fps, "webm", s.recordedChunks.sum⟩]) ∧
    (webmOnStop s w h fps base).recordedChunks = [] := by
  unfold webmOnStop
  by_cases hc : s.recordedChunks = []
  · rw [if_pos ⟨hErr, hc⟩]
    refine ⟨fun _ => cleanup_downloads _ _, fun hpos => ?_, cleanup_chunks _ _⟩
    rw [hc] at hpos
    simp at hpos
  · rw [if_neg (by tauto)]
    dsimp only
    by_cases hz : s.recordedChunks.sum = 0
    · rw [if_pos hz]
      exact ⟨fun _ => cleanup_downloads _ _, fun hpos => absurd hz (by omega),
        cleanup_chunks _ _⟩
    · rw [if_neg hz]
      refine ⟨fun h0 => absurd h0 hz, fun _ => ?_, cleanup_chunks _ _⟩
      rw [cleanup_downloads]

theorem webm_render_error_offers_partial :
    (webmRenderErrorRun [ExpEvent.frame 0 true, ExpEvent.data 7] (1/2) 2 30).error =
      some "Error rendering export frame." ∧
    (webmRenderErrorRun [ExpEvent.frame 0 true, ExpEvent.data 7] (1/2) 2 30).exportProgress = 100 ∧
    (webmRenderErrorRun [ExpEvent.frame 0 true, ExpEvent.data 7] (1/2) 2 30).downloads =
      [⟨"track", 640, 360, 30, "webm", 7⟩] := by
  refine ⟨?_, ?_, ?_⟩ <;> with_unfolding_all rfl

end AudioVis

namespace AudioVis

theorem webmOnStop_shape (s : ExportState) (w h fps : ℕ) (base : String) :
    ∃ x st, webmOnStop s w h fps base = cleanupExportResources x st ∧
      x.cleanupRuns = s.cleanupRuns ∧ x.animationReq = s.animationReq ∧
      x.rafPending = s.rafPending ∧ x.exportAudio = s.exportAudio ∧
      x.audioURLOpen = s.audioURLOpen ∧ x.ffmpegFiles = s.ffmpegFiles := by
  unfold webmOnStop
  by_cases h1 : s.error ≠ none ∧ s.recordedChunks = []
  · rw [if_pos h1]
    exact ⟨_, _, rfl, rfl, rfl, rfl, rfl, rfl, rfl⟩
  · rw [if_neg h1]
    dsimp only
    by_cases h2 : s.recordedChunks.sum = 0
    · rw [if_pos h2]
      exact ⟨_, _, rfl, rfl, rfl, rfl, rfl, rfl, rfl⟩
    · rw [if_neg h2]
      exact ⟨_, _, rfl, rfl, rfl, rfl, rfl, rfl, rfl⟩

theorem mp4OnStop_shape (s : ExportState) (w h fps : ℕ) (base : String) (run : FfmpegRun) :
    ∃ x st, mp4OnStop s w h fps base run = cleanupExportResources x st ∧
      x.cleanupRuns = s.cleanupRuns ∧ x.animationReq = s.animationReq ∧
      x.rafPending = s.rafPending ∧ x.exportAudio = s.exportAudio ∧
      x.audioURLOpen = s.audioURLOpen := by
  rcases run with _ | _ | ec | ⟨ec, os⟩
  all_goals
    unfold mp4OnStop
    by_cases h1 : s.error ≠ none ∧ s.recordedChunks = []
    · rw [if_pos h1]
      exact ⟨_, _, rfl, rfl, rfl, rfl, rfl, rfl⟩
    · rw [if_neg h1]
      dsimp only
      by_cases h2 : s.recordedChunks.sum = 0
      · rw [if_pos h2]
        exact ⟨_, _, rfl, rfl, rfl, rfl, rfl, rfl⟩
      · rw [if_neg h2]
        by_cases h3 : s.ffmpegLoaded = false
        · rw [if_pos h3]
          exact ⟨_, _, rfl, rfl, rfl, rfl, rfl, rfl⟩
        · rw [if_neg h3]
          exact ⟨_, _, rfl, rfl, rfl, rfl, rfl, rfl⟩

theorem webmOnStop_runs (s : ExportState) (w h fps : ℕ) (base : String) :
    (webmOnStop s w h fps base).cleanupRuns = s.cleanupRuns + 1 := by
  obtain ⟨x, st, heq, hruns, -, -, -, -, -⟩ := webmOnStop_shape s w h fps base
  rw [heq, cleanup_runs, hruns]

theorem webmOnStop_ffmpeg (s : ExportState) (w h fps : ℕ) (base : String) :
    (webmOnStop s w h fps base).ffmpegFiles = s.ffmpegFiles := by
  obtain ⟨x, st, heq, -, -, -, -, -, hff⟩ := webmOnStop_shape s w h fps base
  rw [heq, cleanup_ffmpegFiles, hff]

theorem webmOnStop_released (s : ExportState) (w h fps : ℕ) (base : String)
    (hraf : s.animationReq = none → s.rafPending = false)
    (hurl : s.exportAudio = none → s.audioURLOpen = false) :
    ReleasedCore (webmOnStop s w h fps base) := by
  obtain ⟨x, st, heq, -, har, hrp, hea, huo, -⟩ := webmOnStop_shape s w h fps base
  rw [heq]
  refine cleanup_released _ _ (fun hnone => ?_) (fun hnone => ?_)
  · rw [hrp]
    exact hraf (by rw [← har]; exact hnone)
  · rw [huo]
    exact hurl (by rw [← hea]; exact hnone)

theorem mp4OnStop_runs (s : ExportState) (w h fps : ℕ) (base : String) (run : FfmpegRun) :
    (mp4OnStop s w h fps base run).cleanupRuns = s.cleanupRuns + 1 := by
  obtain ⟨x, st, heq, hruns, -, -, -, -⟩ := mp4OnStop_shape s w h fps base run
  rw [heq, cleanup_runs, hruns]

theorem mp4OnStop_released (s : ExportState) (w h fps : ℕ) (base : String) (run : FfmpegRun)
    (hraf : s.animationReq = none → s.rafPending = false)
    (hurl : s.exportAudio = none → s.audioURLOpen = false) :
    ReleasedCore (mp4OnStop s w h fps base run) := by
  obtain ⟨x, st, heq, -, har, hrp, hea, huo⟩ := mp4OnStop_shape s w h fps base run
  rw [heq]
  refine cleanup_released _ _ (fun hnone => ?_) (fun hnone => ?_)
  · rw [hrp]
    exact hraf (by rw [← har]; exact hnone)
  · rw [huo]
    exact hurl (by rw [← hea]; exact hnone)

theorem mp4OnStop_execFails_ffmpeg (s : ExportState) (w h fps : ℕ) (base : String)
    (hne : ¬ (s.error ≠ none ∧ s.recordedChunks = [])) (hch : ¬ s.recordedChunks.sum = 0)
    (hff : s.ffmpegLoaded = true) :
    (mp4OnStop s w h fps base FfmpegRun.execFails).ffmpegFiles =
      s.ffmpegFiles ++ ["input.webm"] := by
  unfold mp4OnStop
  rw [if_neg hne]
  dsimp only
  rw [if_neg hch, if_neg (by simp [hff])]
  rw [cleanup_ffmpegFiles]

theorem mp4OnStop_completes_ffmpeg (s : ExportState) (w h fps : ℕ) (base : String)
    (ec : ℤ) (os : ℕ)
    (hne : ¬ (s.error ≠ none ∧ s.recordedChunks = [])) (hch : ¬ s.recordedChunks.sum = 0)
    (hff : s.ffmpegLoaded = true) :
    (mp4OnStop s w h fps base (FfmpegRun.completes ec os)).ffmpegFiles =
      ((s.ffmpegFiles ++ ["input.webm", "output.mp4"]).erase "input.webm").erase "output.mp4" := by
  unfold mp4OnStop
  rw [if_neg hne]
  dsimp only
  rw [if_neg hch, if_neg (by simp [hff])]
  rw [cleanup_ffmpegFiles]

/-- Claim C3 (corrected): the MP4 onstop handler declares success, setting progress 100 and offering a download, exactly when the write, exec and read steps all resolve; neither the reported transcoder exit code nor emptiness of the converted output is ever checked. -/
theorem mp4OnStop_success_iff (s : ExportState) (w h fps : ℕ) (base : String) (run : FfmpegRun)
    (hch : 0 < s.recordedChunks.sum) (hff : s.ffmpegLoaded = true) :
    (∀ ec os, run = FfmpegRun.completes ec os →
      (mp4OnStop s w h fps base run).exportProgress = 100 ∧
      (mp4OnStop s w h fps base run).downloads =
        s.downloads ++ [⟨base, w, h, fps, "mp4", os⟩]) ∧
    ((∀ ec os, run ≠ FfmpegRun.completes ec os) →
      (mp4OnStop s w h fps base run).exportProgress = 50 ∧
      (mp4OnStop s w h fps base run).downloads = s.downloads ∧
      (mp4OnStop s w h fps base run).error ≠ none) := by
  have hcne : s.recordedChunks ≠ [] := by
    intro h0
    rw [h0] at hch
    simp at hch
  have hnot : ¬ (s.error ≠ none ∧ s.recordedChunks = []) := by tauto
  unfold mp4OnStop
  rw [if_neg hnot]
  dsimp only
  rw [if_neg (by omega : ¬ s.recordedChunks.sum = 0), if_neg (by simp [hff])]
  rcases run with _ | _ | ec | ⟨ec, os⟩
  · constructor
    · intro ec os h
      cases h
    · intro hne
      refine ⟨by rw [cleanup_progress], by rw [cleanup_downloads], ?_⟩
      rw [cleanup_error]
      simp
  · constructor
    · intro ec os h
      cases h
    · intro hne
      refine ⟨by rw [cleanup_progress], by rw [cleanup_downloads], ?_⟩
      rw [cleanup_error]
      simp
  · constructor
    · intro ec2 os h
      cases h
    · intro hne
      refine ⟨by rw [cleanup_progress], by rw [cleanup_downloads], ?_⟩
      rw [cleanup_error]
      simp
  · constructor
    · intro ec2 os2 h
      cases h
      exact ⟨by rw [cleanup_progress], by rw [cleanup_downloads]⟩
    · intro hne
      exact absurd rfl (hne ec os)

theorem mp4_empty_output_success :
    (mp4SuccessRun [] 8 1 1 30 0).exportProgress = 100 ∧
    (mp4SuccessRun [] 8 1 1 30 0).ffmpegFiles = [] ∧
    (mp4SuccessRun [] 8 1 1 30 0).downloads = [⟨"track", 640, 360, 30, "mp4", 0⟩] := by
  refine ⟨?_, ?_, ?_⟩ <;> with_unfolding_all rfl

end AudioVis

namespace AudioVis

theorem sessionStart_live (ty : ExportType) (d : ℚ) (fps : ℕ) (hd : 0 < d) :
    LiveLoop (sessionStart ty d fps) ∧
    (sessionStart ty d fps).recordedChunks = [] ∧
    (sessionStart ty d fps).error = none ∧
    (sessionStart ty d fps).downloads = [] ∧
    (sessionStart ty d fps).cleanupRuns = 0 := by
  unfold sessionStart commonExportSetup installStopHandlers startLoopInit onMetadata onStart
    idleState envAllOk chooseMime LiveLoop
  cases ty <;>
    simp [not_le.mpr hd, List.findIdx?]

theorem renderFnStep_live (s : ExportState) (t d : ℚ) (ty : ExportType)
    (hs : LiveLoop s) (ht : t < d) :
    LiveLoop (renderFnStep s t d true ty) ∧
    (renderFnStep s t d true ty).recordedChunks = s.recordedChunks ∧
    (renderFnStep s t d true ty).downloads = s.downloads := by
  obtain ⟨⟨u, hu⟩, han, hcv, hraf, ⟨k, hk⟩, hcr, herr, hffl, hfff,
    ⟨r, hr, hrs, hstop, hdata, hpend⟩⟩ := hs
  unfold renderFnStep
  simp only [hu, han, hcv, hr, hrs]
  have hnle : ¬ d ≤ t := not_le.mpr ht
  by_cases hdpos : 0 < d <;>
    refine ⟨⟨⟨u, by simp [hnle, hdpos, hu]⟩, by simp [hnle, hdpos, han],
      by simp [hnle, hdpos, hcv], by simp [hnle, hdpos],
      ⟨s.currentExportFrame + 1, by simp [hnle, hdpos]⟩, by simp [hnle, hdpos, hcr],
      by simp [hnle, hdpos, herr], by simp [hnle, hdpos, hffl], by simp [hnle, hdpos, hfff],
      ⟨r, by simp [hnle, hdpos, hr], hrs, hstop, hdata, hpend⟩⟩,
      by simp [hnle, hdpos], by simp [hnle, hdpos]⟩

theorem fireData_live (s : ExportState) (k : ℕ) (hs : LiveLoop s) :
    LiveLoop (fireData s k) ∧
    s.recordedChunks.sum ≤ (fireData s k).recordedChunks.sum ∧
    (fireData s k).downloads = s.downloads := by
  obtain ⟨⟨u, hu⟩, han, hcv, hraf, ⟨j, hj⟩, hcr, herr, hffl, hfff,
    ⟨r, hr, hrs, hstop, hdata, hpend⟩⟩ := hs
  unfold fireData
  rw [hr]
  simp only [hdata, if_true]
  by_cases hk : 0 < k
  · simp only [hk, if_true]
    refine ⟨?_, ?_, ?_⟩
    · exact ⟨⟨u, hu⟩, han, hcv, hraf, ⟨j, hj⟩, hcr, herr, hffl, hfff,
        ⟨r, rfl, hrs, hstop, hdata, hpend⟩⟩
    · simp
    · trivial
  · simp only [hk, if_false]
    refine ⟨?_, ?_, ?_⟩
    · exact ⟨⟨u, hu⟩, han, hcv, hraf, ⟨j, hj⟩, hcr, herr, hffl, hfff,
        ⟨r, hr, hrs, hstop, hdata, hpend⟩⟩
    · exact le_refl _
    · trivial

theorem stepEvent_live (d : ℚ) (ty : ExportType) (s : ExportState) (e : ExpEvent)
    (hs : LiveLoop s) (he : EvKeepsLive d e) :
    LiveLoop (stepEvent d ty s e) ∧
    s.recordedChunks.sum ≤ (stepEvent d ty s e).recordedChunks.sum ∧
    (stepEvent d ty s e).downloads = s.downloads := by
  cases e with
  | frame t renderOk =>
    obtain ⟨ht, hok⟩ := he
    subst hok
    have hstep : stepEvent d ty s (ExpEvent.frame t true) = renderFnStep s t d true ty := by
      unfold stepEvent
      rw [hs.2.2.2.1]
      simp
    rw [hstep]
    obtain ⟨hl, hch, hdl⟩ := renderFnStep_live s t d ty hs ht
    exact ⟨hl, by rw [hch], hdl⟩
  | data k =>
    exact fireData_live s k hs

theorem runEvents_live (d : ℚ) (ty : ExportType) (evs : List ExpEvent) :
    ∀ s : ExportState, LiveLoop s → (∀ e ∈ evs, EvKeepsLive d e) →
      LiveLoop (runEvents d ty s evs) ∧
      s.recordedChunks.sum ≤ (runEvents d ty s evs).recordedChunks.sum ∧
      (runEvents d ty s evs).downloads = s.downloads := by
  induction evs with
  | nil => exact fun s hs _ => ⟨hs, le_refl _, rfl⟩
  | cons e rest ih =>
    intro s hs hevs
    have he : EvKeepsLive d e := hevs e (List.mem_cons_self e rest)
    have hrest : ∀ e2 ∈ rest, EvKeepsLive d e2 := fun e2 h2 => hevs e2 (List.mem_cons_of_mem e h2)
    obtain ⟨hl1, hsum1, hdl1⟩ := stepEvent_live d ty s e hs he
    obtain ⟨hl2, hsum2, hdl2⟩ := ih (stepEvent d ty s e) hl1 hrest
    refine ⟨?_, ?_, ?_⟩
    · rw [runEvents]
      exact hl2
    · rw [runEvents]
      exact le_trans hsum1 hsum2
    · rw [runEvents, hdl2, hdl1]

theorem runEvents_append (d : ℚ) (ty : ExportType) (l1 l2 : List ExpEvent) :
    ∀ s : ExportState, runEvents d ty s (l1 ++ l2) = runEvents d ty (runEvents d ty s l1) l2 := by
  induction l1 with
  | nil => intro s; rfl
  | cons e rest ih =>
    intro s
    rw [List.cons_append, runEvents, runEvents, ih]

theorem renderFnStep_timeStop (s : ExportState) (t d : ℚ) (ty : ExportType) (renderOk : Bool)
    (hs : LiveLoop s) (hd : 0 < d) (ht : d ≤ t) :
    ∃ r2, (renderFnStep s t d renderOk ty).recorder = some r2 ∧
      r2.recState = RecState.inactive ∧ r2.stopEventPending = true ∧ r2.hasOnStop = true ∧
      (renderFnStep s t d renderOk ty).rafPending = false ∧
      (renderFnStep s t d renderOk ty).cleanupRuns = 0 ∧
      (renderFnStep s t d renderOk ty).error = none ∧
      (renderFnStep s t d renderOk ty).ffmpegLoaded = true ∧
      (renderFnStep s t d renderOk ty).ffmpegFiles = [] ∧
      (∃ u, (renderFnStep s t d renderOk ty).exportAudio = some u) ∧
      (∃ k, (renderFnStep s t d renderOk ty).animationReq = some k) ∧
      (renderFnStep s t d renderOk ty).recordedChunks = s.recordedChunks ∧
      (renderFnStep s t d renderOk ty).downloads = s.downloads := by
  obtain ⟨⟨u, hu⟩, han, hcv, hraf, ⟨k, hk⟩, hcr, herr, hffl, hfff,
    ⟨r, hr, hrs, hstop, hdata, hpend⟩⟩ := hs
  unfold renderFnStep
  rw [if_neg (by simp [hu, han, hcv])]
  rw [hr]
  dsimp only
  rw [if_neg (by simp [hrs])]
  rw [if_pos ⟨hd, ht⟩]
  unfold cancelRaf stopRecorder
  dsimp only
  rw [if_pos hrs]
  exact ⟨_, rfl, rfl, rfl, hstop, rfl, hcr, herr, hffl, hfff, ⟨u, hu⟩, ⟨k, hk⟩, rfl, rfl⟩

theorem renderFnStep_renderError (s : ExportState) (t d : ℚ) (ty : ExportType)
    (hs : LiveLoop s) (ht : t < d) :
    ∃ r2, (renderFnStep s t d false ty).recorder = some r2 ∧
      r2.recState = RecState.inactive ∧ r2.stopEventPending = true ∧ r2.hasOnStop = true ∧
      (renderFnStep s t d false ty).rafPending = false ∧
      (renderFnStep s t d false ty).cleanupRuns = 0 ∧
      (renderFnStep s t d false ty).error = some "Error rendering export frame." ∧
      (renderFnStep s t d false ty).ffmpegLoaded = true ∧
      (renderFnStep s t d false ty).ffmpegFiles = [] ∧
      (∃ u, (renderFnStep s t d false ty).exportAudio = some u) ∧
      (∃ k, (renderFnStep s t d false ty).animationReq = some k) ∧
      (renderFnStep s t d false ty).recordedChunks = s.recordedChunks ∧
      (renderFnStep s t d false ty).downloads = s.downloads := by
  obtain ⟨⟨u, hu⟩, han, hcv, hraf, ⟨k, hk⟩, hcr, herr, hffl, hfff,
    ⟨r, hr, hrs, hstop, hdata, hpend⟩⟩ := hs
  unfold renderFnStep
  rw [if_neg (by simp [hu, han, hcv])]
  rw [hr]
  dsimp only
  rw [if_neg (by simp [hrs])]
  rw [if_neg (fun hc => absurd hc.2 (not_le.mpr ht))]
  rw [if_pos rfl]
  unfold cancelRaf stopRecorder
  dsimp only
  rw [if_pos hrs]
  exact ⟨_, rfl, rfl, rfl, hstop, rfl, hcr, rfl, hffl, hfff, ⟨u, hu⟩, ⟨k, hk⟩, rfl, rfl⟩

theorem fireStop_apply (s : ExportState) (handler : ExportState → ExportState)
    (r : RecorderHandle) (hr : s.recorder = some r) (hp : r.stopEventPending = true)
    (hh : r.hasOnStop = true) :
    fireStop s handler = handler { s with recorder := some { r with stopEventPending := false } } := by
  unfold fireStop
  rw [hr]
  simp [hp, hh]

theorem fireData_append (s : ExportState) (k : ℕ) (r : RecorderHandle)
    (hr : s.recorder = some r) (hdata : r.hasOnData = true) (hk : 0 < k) :
    fireData s k = { s with recordedChunks := s.recordedChunks ++ [k] } := by
  unfold fireData
  rw [hr]
  simp [hdata, hk]

theorem fireStop_webm_facts (sStop : ExportState) (r2 : RecorderHandle) (w h fps : ℕ)
    (base : String)
    (hr2 : sStop.recorder = some r2) (hr2p : r2.stopEventPending = true)
    (hr2h : r2.hasOnStop = true) (hcr : sStop.cleanupRuns = 0)
    (hfff : sStop.ffmpegFiles = []) (hk : ∃ k, sStop.animationReq = some k)
    (hu : ∃ u, sStop.exportAudio = some u) :
    (fireStop sStop (fun s2 => webmOnStop s2 w h fps base)).cleanupRuns = 1 ∧
    ReleasedCore (fireStop sStop (fun s2 => webmOnStop s2 w h fps base)) ∧
    (fireStop sStop (fun s2 => webmOnStop s2 w h fps base)).ffmpegFiles = [] := by
  obtain ⟨k, hk⟩ := hk
  obtain ⟨u, hu⟩ := hu
  rw [fireStop_apply _ _ r2 hr2 hr2p hr2h]
  refine ⟨?_, ?_, ?_⟩
  · rw [webmOnStop_runs]
    have h0 : ({ sStop with recorder := some { r2 with stopEventPending := false } } :
        ExportState).cleanupRuns = 0 := hcr
    omega
  · apply webmOnStop_released
    · intro hnone
      have h2 : ({ sStop with recorder := some { r2 with stopEventPending := false } } :
          ExportState).animationReq = some k := hk
      rw [hnone] at h2
      cases h2
    · intro hnone
      have h2 : ({ sStop with recorder := some { r2 with stopEventPending := false } } :
          ExportState).exportAudio = some u := hu
      rw [hnone] at h2
      cases h2
  · rw [webmOnStop_ffmpeg]
    exact hfff

theorem fireStop_mp4_facts (sStop : ExportState) (r2 : RecorderHandle) (w h fps : ℕ)
    (base : String) (run : FfmpegRun)
    (hr2 : sStop.recorder = some r2) (hr2p : r2.stopEventPending = true)
    (hr2h : r2.hasOnStop = true) (hcr : sStop.cleanupRuns = 0)
    (hk : ∃ k, sStop.animationReq = some k) (hu : ∃ u, sStop.exportAudio = some u) :
    (fireStop sStop (fun s2 => mp4OnStop s2 w h fps base run)).cleanupRuns = 1 ∧
    ReleasedCore (fireStop sStop (fun s2 => mp4OnStop s2 w h fps base run)) := by
  obtain ⟨k, hk⟩ := hk
  obtain ⟨u, hu⟩ := hu
  rw [fireStop_apply _ _ r2 hr2 hr2p hr2h]
  refine ⟨?_, ?_⟩
  · rw [mp4OnStop_runs]
    have h0 : ({ sStop with recorder := some { r2 with stopEventPending := false } } :
        ExportState).cleanupRuns = 0 := hcr
    omega
  · apply mp4OnStop_released
    · intro hnone
      have h2 : ({ sStop with recorder := some { r2 with stopEventPending := false } } :
          ExportState).animationReq = some k := hk
      rw [hnone] at h2
      cases h2
    · intro hnone
      have h2 : ({ sStop with recorder := some { r2 with stopEventPending := false } } :
          ExportState).exportAudio = some u := hu
      rw [hnone] at h2
      cases h2

theorem webmSuccess_facts (evs : List ExpEvent) (tEnd d : ℚ) (fps : ℕ)
    (hd : 0 < d) (hEnd : d ≤ tEnd) (hevs : ∀ e ∈ evs, EvKeepsLive d e) :
    (webmSuccessRun evs tEnd d fps).cleanupRuns = 1 ∧
    ReleasedCore (webmSuccessRun evs tEnd d fps) ∧
    (webmSuccessRun evs tEnd d fps).ffmpegFiles = [] := by
  obtain ⟨hl0, -, -, -, -⟩ := sessionStart_live ExportType.webm d fps hd
  obtain ⟨hl1, -, -⟩ := runEvents_live d ExportType.webm evs _ hl0 hevs
  unfold webmSuccessRun
  rw [runEvents_append]
  have hone : runEvents d ExportType.webm
      (runEvents d ExportType.webm (sessionStart ExportType.webm d fps) evs)
      [ExpEvent.frame tEnd true] =
      renderFnStep (runEvents d ExportType.webm (sessionStart ExportType.webm d fps) evs)
        tEnd d true ExportType.webm := by
    rw [runEvents, runEvents]
    unfold stepEvent
    rw [hl1.2.2.2.1]
    simp
  rw [hone]
  obtain ⟨r2, hr2, hr2s, hr2p, hr2h, hraf2, hcr2, herr2, hffl2, hfff2, hu2, hk2, hch2, hdl2⟩ :=
    renderFnStep_timeStop _ tEnd d ExportType.webm true hl1 hd hEnd
  exact fireStop_webm_facts _ r2 640 360 fps "track" hr2 hr2p hr2h hcr2 hfff2 hk2 hu2

theorem webmRenderError_facts (evs : List ExpEvent) (tErr d : ℚ) (fps : ℕ)
    (hd : 0 < d) (hErr : tErr < d) (hevs : ∀ e ∈ evs, EvKeepsLive d e) :
    (webmRenderErrorRun evs tErr d fps).cleanupRuns = 1 ∧
    ReleasedCore (webmRenderErrorRun evs tErr d fps) ∧
    (webmRenderErrorRun evs tErr d fps).ffmpegFiles = [] := by
  obtain ⟨hl0, -, -, -, -⟩ := sessionStart_live ExportType.webm d fps hd
  obtain ⟨hl1, -, -⟩ := runEvents_live d ExportType.webm evs _ hl0 hevs
  unfold webmRenderErrorRun
  rw [runEvents_append]
  have hone : runEvents d ExportType.webm
      (runEvents d ExportType.webm (sessionStart ExportType.webm d fps) evs)
      [ExpEvent.frame tErr false] =
      renderFnStep (runEvents d ExportType.webm (sessionStart ExportType.webm d fps) evs)
        tErr d false ExportType.webm := by
    rw [runEvents, runEvents]
    unfold stepEvent
    rw [hl1.2.2.2.1]
    simp
  rw [hone]
  obtain ⟨r2, hr2, hr2s, hr2p, hr2h, hraf2, hcr2, herr2, hffl2, hfff2, hu2, hk2, hch2, hdl2⟩ :=
    renderFnStep_renderError _ tErr d ExportType.webm hl1 hErr
  exact fireStop_webm_facts _ r2 640 360 fps "track" hr2 hr2p hr2h hcr2 hfff2 hk2 hu2

theorem codecFailure_facts (support : List Bool) (hsup : chooseMime support = none) :
    (codecFailureRun support).cleanupRuns = 1 ∧ ReleasedCore (codecFailureRun support) ∧
    (codecFailureRun support).ffmpegFiles = [] := by
  unfold codecFailureRun commonExportSetup idleState
  simp [hsup, cleanupExportResources, ReleasedCore]

theorem recorderStartFailure_facts (d : ℚ) (fps : ℕ) (hd : 0 < d) :
    (recorderStartFailureRun d fps).cleanupRuns = 1 ∧
    ReleasedCore (recorderStartFailureRun d fps) ∧
    (recorderStartFailureRun d fps).ffmpegFiles = [] := by
  unfold recorderStartFailureRun commonExportSetup installStopHandlers startLoopInit onMetadata
    idleState envAllOk chooseMime
  simp [not_le.mpr hd, List.findIdx?, cleanupExportResources, ReleasedCore]

theorem mp4Stop_common (evs : List ExpEvent) (c : ℕ) (tEnd d : ℚ) (fps : ℕ)
    (run : FfmpegRun)
    (hd : 0 < d) (hEnd : d ≤ tEnd) (hevs : ∀ e ∈ evs, EvKeepsLive d e) :
    ∃ (sStop : ExportState) (r2 : RecorderHandle),
      fireStop
        (runEvents d ExportType.mp4 (sessionStart ExportType.mp4 d fps)
          (evs ++ [ExpEvent.data (c + 1), ExpEvent.frame tEnd true]))
        (fun s2 => mp4OnStop s2 640 360 fps "track" run) =
        mp4OnStop { sStop with recorder := some { r2 with stopEventPending := false } }
          640 360 fps "track" run ∧
      sStop.recorder = some r2 ∧ r2.stopEventPending = true ∧ r2.hasOnStop = true ∧
      sStop.cleanupRuns = 0 ∧ sStop.error = none ∧ sStop.ffmpegLoaded = true ∧
      sStop.ffmpegFiles = [] ∧ sStop.recordedChunks.sum ≠ 0 ∧
      (∃ u, sStop.exportAudio = some u) ∧ (∃ k, sStop.animationReq = some k) := by
  obtain ⟨hl0, -, -, -, -⟩ := sessionStart_live ExportType.mp4 d fps hd
  obtain ⟨hl1, -, -⟩ := runEvents_live d ExportType.mp4 evs _ hl0 hevs
  rw [runEvents_append]
  obtain ⟨⟨u1, hu1⟩, han1, hcv1, hraf1, ⟨k1, hk1⟩, hcr1, herr1, hffl1, hfff1,
    ⟨r1, hrr1, hrs1, hstop1, hdata1, hpend1⟩⟩ := hl1
  rw [runEvents, runEvents, runEvents]
  have hdstep : stepEvent d ExportType.mp4
      (runEvents d ExportType.mp4 (sessionStart ExportType.mp4 d fps) evs)
      (ExpEvent.data (c + 1)) =
      { runEvents d ExportType.mp4 (sessionStart ExportType.mp4 d fps) evs with
        recordedChunks :=
          (runEvents d ExportType.mp4 (sessionStart ExportType.mp4 d fps) evs).recordedChunks
            ++ [c + 1] } := by
    show fireData _ (c + 1) = _
    exact fireData_append _ (c + 1) r1 hrr1 hdata1 (Nat.succ_pos c)
  rw [hdstep]
  have hl2 : LiveLoop
      { runEvents d ExportType.mp4 (sessionStart ExportType.mp4 d fps) evs with
        recordedChunks :=
          (runEvents d ExportType.mp4 (sessionStart ExportType.mp4 d fps) evs).recordedChunks
            ++ [c + 1] } :=
    ⟨⟨u1, hu1⟩, han1, hcv1, hraf1, ⟨k1, hk1⟩, hcr1, herr1, hffl1, hfff1,
      ⟨r1, hrr1, hrs1, hstop1, hdata1, hpend1⟩⟩
  have hfstep : stepEvent d ExportType.mp4
      { runEvents d ExportType.mp4 (sessionStart ExportType.mp4 d fps) evs with
        recordedChunks :=
          (runEvents d ExportType.mp4 (sessionStart ExportType.mp4 d fps) evs).recordedChunks
            ++ [c + 1] } (ExpEvent.frame tEnd true) =
      renderFnStep
        { runEvents d ExportType.mp4 (sessionStart ExportType.mp4 d fps) evs with
          recordedChunks :=
            (runEvents d ExportType.mp4 (sessionStart ExportType.mp4 d fps) evs).recordedChunks
              ++ [c + 1] } tEnd d true ExportType.mp4 := by
    unfold stepEvent
    rw [hl2.2.2.2.1]
    simp
  rw [hfstep]
  obtain ⟨r2, hr2, hr2s, hr2p, hr2h, hraf2, hcr2, herr2, hffl2, hfff2, hu2, hk2, hch2, hdl2⟩ :=
    renderFnStep_timeStop _ tEnd d ExportType.mp4 true hl2 hd hEnd
  refine ⟨_, r2, ?_, hr2, hr2p, hr2h, hcr2, herr2, hffl2, hfff2, ?_, hu2, hk2⟩
  · rw [fireStop_apply _ _ r2 hr2 hr2p hr2h]
  · rw [hch2]
    simp

theorem mp4Success_facts (evs : List ExpEvent) (c : ℕ) (tEnd d : ℚ) (fps outSize : ℕ)
    (hd : 0 < d) (hEnd : d ≤ tEnd) (hevs : ∀ e ∈ evs, EvKeepsLive d e) :
    (mp4SuccessRun evs c tEnd d fps outSize).cleanupRuns = 1 ∧
    ReleasedCore (mp4SuccessRun evs c tEnd d fps outSize) ∧
    (mp4SuccessRun evs c tEnd d fps outSize).ffmpegFiles = [] := by
  obtain ⟨sStop, r2, heq, hr2, hr2p, hr2h, hcr, herr, hffl, hfff, hch, hu, hk⟩ :=
    mp4Stop_common evs c tEnd d fps (FfmpegRun.completes 0 outSize) hd hEnd hevs
  unfold mp4SuccessRun
  rw [heq]
  have hch2 : 0 < ({ sStop with recorder := some { r2 with stopEventPending := false } } :
      ExportState).recordedChunks.sum := Nat.pos_of_ne_zero hch
  have hne : ¬ (({ sStop with recorder := some { r2 with stopEventPending := false } } :
      ExportState).error ≠ none ∧
      ({ sStop with recorder := some { r2 with stopEventPending := false } } :
      ExportState).recordedChunks = []) := by
    intro hcon
    exact hcon.1 herr
  refine ⟨?_, ?_, ?_⟩
  · rw [mp4OnStop_runs]
    show sStop.cleanupRuns + 1 = 1
    omega
  · obtain ⟨k, hk⟩ := hk
    obtain ⟨u, hu⟩ := hu
    apply mp4OnStop_released
    · intro hnone
      have h2 : ({ sStop with recorder := some { r2 with stopEventPending := false } } :
          ExportState).animationReq = some k := hk
      rw [hnone] at h2
      cases h2
    · intro hnone
      have h2 : ({ sStop with recorder := some { r2 with stopEventPending := false } } :
          ExportState).exportAudio = some u := hu
      rw [hnone] at h2
      cases h2
  · rw [mp4OnStop_completes_ffmpeg _ _ _ _ _ 0 outSize hne (Nat.pos_iff_ne_zero.mp hch2) hffl]
    show ((sStop.ffmpegFiles ++ ["input.webm", "output.mp4"]).erase "input.webm").erase
      "output.mp4" = []
    rw [hfff]
    rfl

theorem transcodeFailure_facts (evs : List ExpEvent) (c : ℕ) (tEnd d : ℚ) (fps : ℕ)
    (hd : 0 < d) (hEnd : d ≤ tEnd) (hevs : ∀ e ∈ evs, EvKeepsLive d e) :
    (transcodeFailureRun evs c tEnd d fps).cleanupRuns = 1 ∧
    ReleasedCore (transcodeFailureRun evs c tEnd d fps) ∧
    (transcodeFailureRun evs c tEnd d fps).ffmpegFiles = ["input.webm"] := by
  obtain ⟨sStop, r2, heq, hr2, hr2p, hr2h, hcr, herr, hffl, hfff, hch, hu, hk⟩ :=
    mp4Stop_common evs c tEnd d fps FfmpegRun.execFails hd hEnd hevs
  unfold transcodeFailureRun
  rw [heq]
  have hch2 : 0 < ({ sStop with recorder := some { r2 with stopEventPending := false } } :
      ExportState).recordedChunks.sum := Nat.pos_of_ne_zero hch
  have hne : ¬ (({ sStop with recorder := some { r2 with stopEventPending := false } } :
      ExportState).error ≠ none ∧
      ({ sStop with recorder := some { r2 with stopEventPending := false } } :
      ExportState).recordedChunks = []) := by
    intro hcon
    exact hcon.1 herr
  refine ⟨?_, ?_, ?_⟩
  · rw [mp4OnStop_runs]
    show sStop.cleanupRuns + 1 = 1
    omega
  · obtain ⟨k, hk⟩ := hk
    obtain ⟨u, hu⟩ := hu
    apply mp4OnStop_released
    · intro hnone
      have h2 : ({ sStop with recorder := some { r2 with stopEventPending := false } } :
          ExportState).animationReq = some k := hk
      rw [hnone] at h2
      cases h2
    · intro hnone
      have h2 : ({ sStop with recorder := some { r2 with stopEventPending := false } } :
          ExportState).exportAudio = some u := hu
      rw [hnone] at h2
      cases h2
  · rw [mp4OnStop_execFails_ffmpeg _ _ _ _ _ hne (Nat.pos_iff_ne_zero.mp hch2) hffl]
    show sStop.ffmpegFiles ++ ["input.webm"] = ["input.webm"]
    rw [hfff]
    rfl

/-- Claim C2 (corrected): across the modelled exit paths (normal completion, mid-render exception, codec-negotiation failure, recorder start failure, MP4 success, transcode failure) the cleanup routine runs exactly once and the core resources end released; however, after a transcode failure the input.webm entry written to the ffmpeg working store stays behind, and the code has no user-cancel path at all. -/
theorem export_paths_cleanup_once
    (evs : List ExpEvent) (c : ℕ) (tEnd tErr d : ℚ) (fps outSize : ℕ) (support : List Bool)
    (hd : 0 < d) (hEnd : d ≤ tEnd) (hErr : tErr < d)
    (hevs : ∀ e ∈ evs, EvKeepsLive d e) (hsup : chooseMime support = none) :
    ((webmSuccessRun evs tEnd d fps).cleanupRuns = 1 ∧
      ReleasedCore (webmSuccessRun evs tEnd d fps) ∧
      (webmSuccessRun evs tEnd d fps).ffmpegFiles = []) ∧
    ((webmRenderErrorRun evs tErr d fps).cleanupRuns = 1 ∧
      ReleasedCore (webmRenderErrorRun evs tErr d fps) ∧
      (webmRenderErrorRun evs tErr d fps).ffmpegFiles = []) ∧
    ((codecFailureRun support).cleanupRuns = 1 ∧
      ReleasedCore (codecFailureRun support) ∧
      (codecFailureRun support).ffmpegFiles = []) ∧
    ((recorderStartFailureRun d fps).cleanupRuns = 1 ∧
      ReleasedCore (recorderStartFailureRun d fps) ∧
      (recorderStartFailureRun d fps).ffmpegFiles = []) ∧
    ((mp4SuccessRun evs c tEnd d fps outSize).cleanupRuns = 1 ∧
      ReleasedCore (mp4SuccessRun evs c tEnd d fps outSize) ∧
      (mp4SuccessRun evs c tEnd d fps outSize).ffmpegFiles = []) ∧
    ((transcodeFailureRun evs c tEnd d fps).cleanupRuns = 1 ∧
      ReleasedCore (transcodeFailureRun evs c tEnd d fps) ∧
      (transcodeFailureRun evs c tEnd d fps).ffmpegFiles = ["input.webm"]) := by
  exact ⟨webmSuccess_facts evs tEnd d fps hd hEnd hevs,
    webmRenderError_facts evs tErr d fps hd hErr hevs,
    codecFailure_facts support hsup,
    recorderStartFailure_facts d fps hd,
    mp4Success_facts evs c tEnd d fps outSize hd hEnd hevs,
    transcodeFailure_facts evs c tEnd d fps hd hEnd hevs⟩

theorem transcode_failure_leaks_input :
    (transcodeFailureRun [] 4 1 1 30).cleanupRuns = 1 ∧
    (transcodeFailureRun [] 4 1 1 30).ffmpegFiles = ["input.webm"] ∧
    (transcodeFailureRun [] 4 1 1 30).error = some "MP4 export failed during video processing." := by
  refine ⟨?_, ?_, ?_⟩ <;> with_unfolding_all rfl

theorem circularBarGeom_shape_witness :
    ((circularBarGeom 5 4 2).isCapsule = true ↔ (4 : ℚ) / 2 < 5) ∧
    ((circularBarGeom 5 4 2).isRectangle = true ↔ (5 : ℚ) ≤ 4 / 2) :=
  circularBarGeom_shape 5 4 2 (by norm_num) (by norm_num)

theorem imageDrawSize_bounded_witness :
    (0 : ℚ) < 200 ∧
    (imageDrawSize ⟨200, 200, 0⟩ none 300 300 pulseProps true).1 ≤
      300 / (if pulseProps.visualizationType = VisualizationType.circular then 3 else 5/2) *
        pulseProps.imageScale *
        imageBeatScale true pulseProps.enablePulse none pulseProps.pulseIntensity :=
  ⟨by norm_num,
    (imageDrawSize_bounded ⟨200, 200, 0⟩ none 300 300 pulseProps true
      (show (0 : ℚ) < 200 by norm_num) (show (0 : ℚ) < 200 by norm_num)).1⟩

theorem commonExportSetup_rejects_active_witness :
    ({ idleState with isExporting := true } : ExportState).isExporting = true ∧
    (commonExportSetup { idleState with isExporting := true } ExportType.webm envAllOk).2 =
      false :=
  ⟨rfl, (commonExportSetup_rejects_active { idleState with isExporting := true }
    ExportType.webm envAllOk rfl).1⟩

theorem exportLoop_time_based_witness :
    (0 : ℚ) < 2 ∧
    (onMetadata
      { idleState with
        exportAudio := some "u", analyserSet := true, renderCanvasSet := true,
        recorder := some
          { recState := RecState.recording, hasOnStart := true, hasOnStop := true,
            hasOnData := true, hasOnError := true, stopEventPending := false } }
      (some 2) 30 true).totalExportFrames =
      ⌊(2 : ℚ) * ((30 : ℕ) : ℚ)⌋ :=
  ⟨by norm_num,
    (exportLoop_time_based
      { idleState with
        exportAudio := some "u", analyserSet := true, renderCanvasSet := true,
        recorder := some
          { recState := RecState.recording, hasOnStart := true, hasOnStop := true,
            hasOnData := true, hasOnError := true, stopEventPending := false } }
      { recState := RecState.recording, hasOnStart := true, hasOnStop := true,
        hasOnData := true, hasOnError := true, stopEventPending := false }
      "u" 1 2 ExportType.webm 0 0 0 0 30 rfl rfl rfl rfl rfl (by norm_num)).1⟩

theorem exportProgress_monotone_bounded_witness :
    (webmProgressTrace [1/2, 3/2] 2).Chain' (· ≤ ·) ∧
    (∀ v ∈ webmProgressTrace [1/2, 3/2] 2, 0 ≤ v ∧ v ≤ 100) ∧
    (mp4ProgressTrace [1/2, 3/2] [1/10, 1] 2).Chain' (· ≤ ·) ∧
    (∀ v ∈ mp4ProgressTrace [1/2, 3/2] [1/10, 1] 2, 0 ≤ v ∧ v ≤ 100) :=
  exportProgress_monotone_bounded [1/2, 3/2] [1/10, 1] 2 (by norm_num)
    (by simp [List.chain'_cons]; norm_num)
    (by
      intro t ht
      rcases List.mem_cons.mp ht with h | h
      · subst h; constructor <;> norm_num
      · rw [List.mem_singleton] at h; subst h; constructor <;> norm_num)
    (by simp [List.chain'_cons]; norm_num)
    (by
      intro p hp
      rcases List.mem_cons.mp hp with h | h
      · subst h; constructor <;> norm_num
      · rw [List.mem_singleton] at h; subst h; constructor <;> norm_num)

theorem webmOnStop_partial_artifact_witness :
    ({ idleState with error := some "boom", recordedChunks := [7] } : ExportState).error ≠
      none ∧
    (webmOnStop { idleState with error := some "boom", recordedChunks := [7] }
      640 360 30 "track").recordedChunks = [] :=
  ⟨by simp,
    (webmOnStop_partial_artifact { idleState with error := some "boom", recordedChunks := [7] }
      640 360 30 "track" (by simp)).2.2⟩

theorem export_paths_cleanup_once_witness :
    (0 : ℚ) < 1 ∧ chooseMime [] = none ∧
    ((webmSuccessRun [] 1 1 30).cleanupRuns = 1 ∧
      ReleasedCore (webmSuccessRun [] 1 1 30) ∧
      (webmSuccessRun [] 1 1 30).ffmpegFiles = []) :=
  ⟨by norm_num, rfl,
    (export_paths_cleanup_once [] 0 1 0 1 30 5 [] (by norm_num) (le_refl 1) (by norm_num)
      (by simp) rfl).1⟩

theorem mp4OnStop_success_iff_witness :
    0 < ({ idleState with recordedChunks := [7], ffmpegLoaded := true } :
      ExportState).recordedChunks.sum ∧
    (mp4OnStop { idleState with recordedChunks := [7], ffmpegLoaded := true }
      640 360 30 "track" (FfmpegRun.completes 0 5)).exportProgress = 100 :=
  ⟨by simp,
    ((mp4OnStop_success_iff { idleState with recordedChunks := [7], ffmpegLoaded := true }
      640 360 30 "track" (FfmpegRun.completes 0 5) (by simp) rfl).1 0 5 rfl).1⟩

end AudioVis
